import Mathlib

/-! # ecash-sdk-core: a shallow embedding of the transaction pipeline

The development follows the package layout of the repository:

* `pkg/types`      : `TransactionRequest`, `TransactionResponse`
* `pkg/errors`     : `ErrorCode`, `SDKError`, `Wrap`
* `pkg/validator`  : `ValidateAddress`, `ValidateAmount`, `ValidateChain`,
                     `ValidateTransactionRequest`
* `pkg/cache`      : `Cache.Set`, `Cache.Get`, `Cache.Delete`, one pass of `cleanup`
* `pkg/agent`      : `RequestQuotes`, `SelectBestRoute`
* `pkg/zk`         : `GenerateSolvencyProof`
* `pkg/monitoring` : `Metrics.RecordTransaction`
* `pkg/client`     : `ExecuteTransaction`

Conventions.  A Go `error` is the text of its `Error()` method, `nil` is `none`.
A `time.Time` is an integer number of nanoseconds on the process clock and a
`time.Duration` is an integer number of nanoseconds.  A finite `float64` is the
rational number it denotes; only comparisons of such numbers are used in the
theorems.  Everything the outside world decides during one call (clock readings,
which arm of a `select` fires, the fresh UUID) is collected in a `CallEnv`.
-/

set_option exponentiation.threshold 2048

namespace ECash

/-! ## pkg/types -/

/-- ChainID represents supported blockchain networks (a Go string type). -/
abbrev ChainID := String

def ChainEthereum : ChainID := "ethereum"
def ChainBase : ChainID := "base"
def ChainSolana : ChainID := "solana"

/-- IntentType defines the classification of the operation (a Go string type). -/
abbrev IntentType := String

def IntentTransfer : IntentType := "transfer"
def IntentSwap : IntentType := "swap"
def IntentShield : IntentType := "shield"

/-- TransactionRequest is the standard payload for initiating an operation.
The Go field `Type` is spelled `Typ` here. -/
structure TransactionRequest where
  ReferenceID : String
  Typ : IntentType
  Amount : String
  Asset : String
  Recipient : String
  SourceChain : ChainID
  TargetChain : ChainID
  IsShielded : Bool
  deriving DecidableEq, Repr

/-- TransactionResponse is the result of an intent execution. -/
structure TransactionResponse where
  TxHash : String
  Status : String
  BlockHeight : Nat
  FeeUsed : String
  deriving DecidableEq, Repr

/-! ## pkg/errors -/

/-- ErrorCode represents standardized error codes (a Go string type). -/
abbrev ErrorCode := String

def ErrInvalidRequest : ErrorCode := "INVALID_REQUEST"
def ErrInsufficientFunds : ErrorCode := "INSUFFICIENT_FUNDS"
def ErrNetworkFailure : ErrorCode := "NETWORK_FAILURE"
def ErrProofGeneration : ErrorCode := "PROOF_GENERATION_FAILED"
def ErrAgentUnavailable : ErrorCode := "AGENT_UNAVAILABLE"
def ErrTimeout : ErrorCode := "TIMEOUT"

/-- SDKError is a structured error: a code, a message and the wrapped cause
(the text of the cause, `none` for a nil cause). -/
structure SDKError where
  Code : ErrorCode
  Message : String
  Cause : Option String
  deriving DecidableEq, Repr

/-- Wrap wraps an existing error with SDK error context. -/
def Wrap (code : ErrorCode) (message : String) (cause : Option String) : SDKError :=
  { Code := code, Message := message, Cause := cause }

/-! ## pkg/validator -/

/-- Character class `[a-fA-F0-9]` of `addressRegex`. -/
def isHexChar (c : Char) : Bool :=
  (decide ('a' ≤ c) && decide (c ≤ 'f')) || (decide ('A' ≤ c) && decide (c ≤ 'F'))
    || (decide ('0' ≤ c) && decide (c ≤ '9'))

/-- Character class `\d` of `amountRegex` (ASCII digits only in Go's RE2). -/
def isDecDigit (c : Char) : Bool :=
  decide ('0' ≤ c) && decide (c ≤ '9')

/-- A match of `addressRegex = ^0x[a-fA-F0-9]{40}$` against the whole string. -/
def addressRegexMatch (address : String) : Bool :=
  match address.toList with
  | '0' :: 'x' :: rest => decide (rest.length = 40) && rest.all isHexChar
  | _ => false

/-- A match of `amountRegex = ^\d+(\.\d+)?$` against the whole string, returning
the digits of the integer part and of the fractional part (empty when the
optional group is absent).  The integer part of any match is the longest run of
leading digits, because the character after it is `.` or the end of the text. -/
def amountRegexMatch (amount : String) : Option (List Char × List Char) :=
  let cs := amount.toList
  let ip := cs.takeWhile isDecDigit
  match ip, cs.dropWhile isDecDigit with
  | [], _ => none
  | _ :: _, [] => some (ip, [])
  | _ :: _, '.' :: fp => if fp ≠ [] ∧ fp.all isDecDigit = true then some (ip, fp) else none
  | _ :: _, _ :: _ => none

/-- Value of a run of decimal digits. -/
def digitsValue (ds : List Char) : Nat :=
  ds.foldl (fun n c => 10 * n + (c.toNat - '0'.toNat)) 0

/-- What `ValidateAmount` observes of `strconv.ParseFloat(s, 64)`. -/
inductive ParseFloatResult where
  | rangeError
  | value (positive : Bool)
  deriving DecidableEq, Repr

/-- Model of `strconv.ParseFloat(s, 64)` on a decimal literal with integer digits
`ip` and fractional digits `fp`, that is on the exact number `m / 10 ^ k` with
`m = digitsValue (ip ++ fp)` and `k = fp.length`.  The library rounds to the
nearest float64, ties to even:

* a number of at least `2 ^ 1024 - 2 ^ 970` (the largest float64 plus half a
  unit in the last place) rounds to `+Inf` and is reported as `ErrRange`;
* a number of at most `2 ^ (-1075)` (half the smallest subnormal) rounds to `0`;
* every other number rounds to a positive float64. -/
def ParseFloat (ip fp : List Char) : ParseFloatResult :=
  let m := digitsValue (ip ++ fp)
  let k := fp.length
  if (2 ^ 1024 - 2 ^ 970) * 10 ^ k ≤ m then ParseFloatResult.rangeError
  else ParseFloatResult.value (decide (10 ^ k < m * 2 ^ 1075))

/-- ValidateAddress checks if an address is valid. -/
def ValidateAddress (address : String) : Option String :=
  if !addressRegexMatch address then
    some ("invalid address format: " ++ address)
  else none

/-- ValidateAmount checks if an amount string is valid.  `strconv.Quote` of a
string that matched `amountRegex` is the string between double quotes. -/
def ValidateAmount (amount : String) : Option String :=
  match amountRegexMatch amount with
  | none => some ("invalid amount format: " ++ amount)
  | some (ip, fp) =>
    match ParseFloat ip fp with
    | ParseFloatResult.rangeError =>
      some ("failed to parse amount: strconv.ParseFloat: parsing \"" ++ amount
        ++ "\": value out of range")
    | ParseFloatResult.value positive =>
      if !positive then some "amount must be positive" else none

/-- The map literal `validChains` of `ValidateChain`. -/
def validChains : List (ChainID × Bool) :=
  [(ChainEthereum, true), (ChainBase, true), (ChainSolana, true)]

/-- Go map indexing `validChains[chain]`: the zero value `false` for a missing key. -/
def validChainsAt (chain : ChainID) : Bool :=
  match validChains.lookup chain with
  | some b => b
  | none => false

/-- ValidateChain checks if a chain ID is supported. -/
def ValidateChain (chain : ChainID) : Option String :=
  if !validChainsAt chain then some ("unsupported chain: " ++ chain) else none

/-- ValidateTransactionRequest performs comprehensive validation. -/
def ValidateTransactionRequest (req : TransactionRequest) : Option String :=
  match ValidateAmount req.Amount with
  | some err => some ("amount validation failed: " ++ err)
  | none =>
    match ValidateChain req.SourceChain with
    | some err => some ("source chain validation failed: " ++ err)
    | none =>
      match (if req.TargetChain ≠ "" then ValidateChain req.TargetChain else none) with
      | some err => some ("target chain validation failed: " ++ err)
      | none =>
        match (if req.Recipient ≠ "" then ValidateAddress req.Recipient else none) with
        | some err => some ("recipient validation failed: " ++ err)
        | none => none

/-! ## pkg/cache -/

/-- A Go `interface{}` value as the cache holds it: a `*types.TransactionResponse`,
or a value of some other dynamic type (for which the type assertion in
`ExecuteTransaction` fails). -/
inductive Any where
  | response (r : TransactionResponse)
  | other (tag : String)
  deriving DecidableEq, Repr

/-- CacheEntry represents a cached item with expiration. -/
structure CacheEntry where
  Value : Any
  Expiration : Int
  deriving DecidableEq, Repr

/-- Cache provides in-memory caching.  The Go map `items` is a finite map from
keys to entries; the mutex is not modelled (operations are atomic steps). -/
structure Cache where
  items : String → Option CacheEntry
  ttl : Int

/-- NewCache creates a new cache with specified TTL. -/
def NewCache (ttl : Int) : Cache :=
  { items := fun _ => none, ttl := ttl }

/-- Set stores a value in the cache; `now` is the reading of `time.Now()`. -/
def Cache.Set (c : Cache) (now : Int) (key : String) (value : Any) : Cache :=
  { c with items := fun k =>
      if k = key then some { Value := value, Expiration := now + c.ttl } else c.items k }

/-- Get retrieves a value from the cache; `now` is the reading of `time.Now()`.
`none` is the Go result `(nil, false)`, `some v` is `(v, true)`. -/
def Cache.Get (c : Cache) (now : Int) (key : String) : Option Any :=
  match c.items key with
  | none => none
  | some entry => if entry.Expiration < now then none else some entry.Value

/-- Delete removes a key from the cache. -/
def Cache.Delete (c : Cache) (key : String) : Cache :=
  { c with items := fun k => if k = key then none else c.items k }

/-- One tick of the `cleanup` loop: every entry with `now.After(entry.Expiration)`
is deleted. -/
def Cache.cleanupPass (c : Cache) (now : Int) : Cache :=
  { c with items := fun k =>
      match c.items k with
      | none => none
      | some entry => if entry.Expiration < now then none else some entry }

/-! ## pkg/agent -/

/-- One second as a `time.Duration`. -/
def Second : Int := 1000000000

/-- RouteQuote represents a quote from an agent for executing a transaction.
`SecurityScore` is a float64 documented as lying in 0.0 - 1.0; it is modelled by
the rational number it denotes, so NaN and the infinities are outside the model. -/
structure RouteQuote where
  AgentID : String
  EstimatedFee : String
  EstimatedTime : Int
  Route : List String
  SecurityScore : ℚ
  deriving DecidableEq

/-- AgentNegotiator handles fee negotiation and route selection. -/
structure AgentNegotiator where
  timeout : Int
  deriving DecidableEq, Repr

def NewNegotiator (timeout : Int) : AgentNegotiator :=
  { timeout := timeout }

/-- The value of `ctx.Err()` once `ctx.Done()` is closed. -/
inductive CtxErr where
  | DeadlineExceeded
  | Canceled
  deriving DecidableEq, Repr

def CtxErr.Error : CtxErr → String
  | CtxErr.DeadlineExceeded => "context deadline exceeded"
  | CtxErr.Canceled => "context canceled"

/-- First simulated quote of `RequestQuotes`. -/
def quote001 (req : TransactionRequest) : RouteQuote :=
  { AgentID := "agent-001",
    EstimatedFee := "0.05 USDC",
    EstimatedTime := 15 * Second,
    Route := [req.SourceChain, req.TargetChain],
    SecurityScore := 98 / 100 }

/-- Second simulated quote of `RequestQuotes`. -/
def quote002 (req : TransactionRequest) : RouteQuote :=
  { AgentID := "agent-002",
    EstimatedFee := "0.03 USDC",
    EstimatedTime := 30 * Second,
    Route := [req.SourceChain, "polygon", req.TargetChain],
    SecurityScore := 85 / 100 }

/-- RequestQuotes fetches multiple route quotes from available agents.
`ctxDone` tells which arm of the `select` fires: `some e` when `ctx.Done()` is
received first (the deadline elapsed or the caller cancelled) with `ctx.Err() = e`,
`none` when the 50 ms mock latency elapses first. -/
def AgentNegotiator.RequestQuotes (_n : AgentNegotiator) (ctxDone : Option CtxErr)
    (req : TransactionRequest) : Except String (List RouteQuote) :=
  match ctxDone with
  | some e => Except.error e.Error
  | none => Except.ok [quote001 req, quote002 req]

/-- The loop of `SelectBestRoute`: `best` moves to `quotes[i]` when its score is
strictly higher. -/
def selectLoop (best : RouteQuote) (quotes : List RouteQuote) : RouteQuote :=
  quotes.foldl (fun best q => if q.SecurityScore > best.SecurityScore then q else best) best

/-- SelectBestRoute applies multi-factor optimization to choose the best agent.
The loop starts from `quotes[0]` and ranges over every index, index 0 included. -/
def AgentNegotiator.SelectBestRoute (_n : AgentNegotiator) (quotes : List RouteQuote)
    (_preference : String) : Except String RouteQuote :=
  match quotes with
  | [] => Except.error "no quotes available"
  | q0 :: _ => Except.ok (selectLoop q0 quotes)

/-! ## pkg/zk -/

/-- ProofGenerator handles the creation of Zero-Knowledge proofs. -/
structure ProofGenerator where
  CircuitPath : String
  deriving DecidableEq, Repr

def NewProofGenerator (circuitPath : String) : ProofGenerator :=
  { CircuitPath := circuitPath }

/-- The two lower-case hex digits of a byte, as `hex.EncodeToString` writes them. -/
def hexByte (b : Fin 256) : List Char :=
  [Nat.digitChar (b.val / 16), Nat.digitChar (b.val % 16)]

/-- The function `hex.EncodeToString` on a 32-byte digest. -/
def hexEncodeToString (digest : Fin 32 → Fin 256) : String :=
  String.mk ((List.ofFn digest).flatMap hexByte)

/-- GenerateSolvencyProof simulates the generation of a ZK proof.  The library
function `sha256.Sum256` is a parameter.  The error result is always nil. -/
def ProofGenerator.GenerateSolvencyProof (pg : ProofGenerator)
    (sha256Sum : String → Fin 32 → Fin 256) (balance required : String) :
    String × Option String :=
  let input := balance ++ "-" ++ required ++ "-" ++ pg.CircuitPath
  ("0x" ++ hexEncodeToString (sha256Sum input), none)

/-- VerifyProof verifies a ZK proof off-chain.  Go's `len(proof)` is the number of
bytes of the string. -/
def ProofGenerator.VerifyProof (_pg : ProofGenerator) (proof : String) : Bool :=
  decide (proof.utf8ByteSize > 10)

/-! ## pkg/monitoring -/

/-- Two's complement wrap-around of an `int64` result. -/
def wrapInt64 (x : Int) : Int :=
  (x + 2 ^ 63) % 2 ^ 64 - 2 ^ 63

/-- Metrics tracks SDK performance and usage statistics.  `TotalFeePaid` is a
float64, modelled by the rational sum of the fees. -/
structure Metrics where
  TotalTransactions : Int
  SuccessfulTransactions : Int
  FailedTransactions : Int
  TotalFeePaid : ℚ
  AverageLatency : Int
  deriving DecidableEq

/-- RecordTransaction records a transaction attempt. -/
def Metrics.RecordTransaction (m : Metrics) (success : Bool) (fee : ℚ) (latency : Int) :
    Metrics :=
  { TotalTransactions := wrapInt64 (m.TotalTransactions + 1),
    SuccessfulTransactions :=
      if success then wrapInt64 (m.SuccessfulTransactions + 1) else m.SuccessfulTransactions,
    TotalFeePaid := if success then m.TotalFeePaid + fee else m.TotalFeePaid,
    FailedTransactions :=
      if success then m.FailedTransactions else wrapInt64 (m.FailedTransactions + 1),
    AverageLatency := Int.tdiv (wrapInt64 (m.AverageLatency + latency)) 2 }

/-- Reset clears all metrics. -/
def Metrics.Reset (_m : Metrics) : Metrics :=
  { TotalTransactions := 0, SuccessfulTransactions := 0, FailedTransactions := 0,
    TotalFeePaid := 0, AverageLatency := 0 }

/-- A float64 value: NaN, an infinity, or a finite number (the rational it
denotes; rounding of finite results is not modelled). -/
inductive Float64 where
  | nan
  | posInf
  | negInf
  | finite (value : ℚ)
  deriving DecidableEq

/-- The Go expression `float64(s) / float64(t)` on two int64 values: IEEE 754
division does not fault on a zero divisor, `0 / 0` is NaN and `x / 0` is an
infinity with the sign of `x`. -/
def float64Quotient (s t : Int) : Float64 :=
  if t = 0 then
    if s = 0 then Float64.nan
    else if 0 < s then Float64.posInf
    else Float64.negInf
  else Float64.finite ((s : ℚ) / (t : ℚ))

/-- The map returned by `GetStats`, one field per key. -/
structure Stats where
  total_transactions : Int
  successful_transactions : Int
  failed_transactions : Int
  total_fee_paid : ℚ
  average_latency_ms : Int
  success_rate : Float64
  deriving DecidableEq

/-- GetStats returns current statistics.  `Duration.Milliseconds` is the integer
division of the nanoseconds by 1e6. -/
def Metrics.GetStats (m : Metrics) : Stats :=
  { total_transactions := m.TotalTransactions,
    successful_transactions := m.SuccessfulTransactions,
    failed_transactions := m.FailedTransactions,
    total_fee_paid := m.TotalFeePaid,
    average_latency_ms := Int.tdiv m.AverageLatency 1000000,
    success_rate := float64Quotient m.SuccessfulTransactions m.TotalTransactions }

/-- A call on the metrics instance. -/
inductive MetricsOp where
  | record (success : Bool) (fee : ℚ) (latency : Int)
  | reset

/-- One call applied to the metrics state. -/
def MetricsOp.apply (m : Metrics) : MetricsOp → Metrics
  | MetricsOp.record success fee latency => m.RecordTransaction success fee latency
  | MetricsOp.reset => m.Reset

/-- A sequence of calls applied in order. -/
def applyOps (ops : List MetricsOp) (m : Metrics) : Metrics :=
  ops.foldl MetricsOp.apply m

/-! ## pkg/config -/

/-- SDKConfig holds global configuration for the SDK. -/
structure SDKConfig where
  APIEndpoint : String
  APIKey : String
  Environment : String
  Timeout : Int
  MaxRetries : Int
  RetryBackoff : Int
  EnableZKProofs : Bool
  ProofCacheTTL : Int
  EnableMetrics : Bool
  EnableCaching : Bool
  CacheTTL : Int
  deriving DecidableEq, Repr

/-- The helper `getEnv`: the environment variable, or the fallback when it is
unset or empty.  `osGetenv` is `os.Getenv`. -/
def getEnv (osGetenv : String → String) (key fallback : String) : String :=
  if osGetenv key ≠ "" then osGetenv key else fallback

/-- DefaultConfig returns sensible defaults. -/
def DefaultConfig (osGetenv : String → String) : SDKConfig :=
  { APIEndpoint := getEnv osGetenv "ECASH_API_ENDPOINT" "https://api.useeasy.cash",
    APIKey := getEnv osGetenv "ECASH_API_KEY" "",
    Environment := getEnv osGetenv "ECASH_ENV" "mainnet",
    Timeout := 30 * Second,
    MaxRetries := 3,
    RetryBackoff := 2 * Second,
    EnableZKProofs := true,
    ProofCacheTTL := 5 * 60 * Second,
    EnableMetrics := true,
    EnableCaching := true,
    CacheTTL := 1 * 60 * Second }

/-- Validate checks if the configuration is valid (it always is). -/
def SDKConfig.Validate (_c : SDKConfig) : Option String :=
  none

/-! ## pkg/client -/

/-- EasyCashClient is the main entry point for the SDK.  `cache` is `none` for
the nil pointer; `metrics` is the state of the global metrics instance. -/
structure EasyCashClient where
  config : SDKConfig
  zk : ProofGenerator
  negotiator : AgentNegotiator
  cache : Option Cache
  metrics : Metrics

/-- NewClient initializes a new EasyCash SDK client with full configuration;
`cfg = none` is the nil configuration, `globalMetrics` the state of the
process-wide metrics instance. -/
def NewClient (osGetenv : String → String) (globalMetrics : Metrics)
    (cfg : Option SDKConfig) : Except SDKError EasyCashClient :=
  let cfg := match cfg with
    | none => DefaultConfig osGetenv
    | some cfg => cfg
  match cfg.Validate with
  | some err => Except.error (Wrap ErrInvalidRequest "invalid configuration" (some err))
  | none =>
    Except.ok
      { config := cfg,
        zk := NewProofGenerator "./circuits/spend.wasm",
        negotiator := NewNegotiator cfg.Timeout,
        metrics := globalMetrics,
        cache := if cfg.EnableCaching then some (NewCache cfg.CacheTTL) else none }

/-- What the outside world decides during one call of `ExecuteTransaction`. -/
structure CallEnv where
  /-- reading of `time.Now()` inside `Cache.Get` -/
  cacheGetNow : Int
  /-- the library function `sha256.Sum256` -/
  sha256Sum : String → Fin 32 → Fin 256
  /-- the `select` of `RequestQuotes`: `some e` when `ctx.Done()` fires first -/
  quotesCtxDone : Option CtxErr
  /-- the `select` of step 6: `some e` when `ctx.Done()` fires first -/
  settleCtxDone : Option CtxErr
  /-- the text of `uuid.New().String()` -/
  uuid : String
  /-- reading of `time.Now()` inside `Cache.Set` -/
  cacheSetNow : Int
  /-- the value of `time.Since(startTime)` in the deferred function -/
  elapsed : Int

/-- The steps of `ExecuteTransaction` that touch a collaborator, in the order in
which a call performs them. -/
inductive Event where
  | cacheGet (key : String)
  | generateProof
  | requestQuotes
  | selectBestRoute
  | settle
  | cacheSet (key : String)
  | recordTransaction (success : Bool) (fee : ℚ) (latency : Int)
  deriving DecidableEq

/-- The cache key `fmt.Sprintf("%s-%s-%s", req.Type, req.Amount, req.Asset)`. -/
def cacheKey (req : TransactionRequest) : String :=
  req.Typ ++ "-" ++ req.Amount ++ "-" ++ req.Asset

/-- The state of a call when its body returns: the returned pair, the locals
`success` and `fee` the deferred function reads, the cache, and the steps taken. -/
structure Body where
  result : Except SDKError TransactionResponse
  success : Bool
  fee : ℚ
  cache : Option Cache
  trace : List Event

/-- Steps 3 to 8 of `ExecuteTransaction`, after a cache miss; `pre` are the
steps taken so far. -/
def executeAfterMiss (c : EasyCashClient) (env : CallEnv) (req : TransactionRequest)
    (pre : List Event) : Body :=
  -- 3. Generate ZK Proof if shielded
  let proofErr : Option String :=
    if c.config.EnableZKProofs && req.IsShielded then
      (c.zk.GenerateSolvencyProof env.sha256Sum req.Amount "0").2
    else none
  let t3 : List Event :=
    if c.config.EnableZKProofs && req.IsShielded then pre ++ [Event.generateProof] else pre
  match proofErr with
  | some err =>
    { result := Except.error
        (Wrap ErrProofGeneration "failed to generate privacy proof" (some err)),
      success := false, fee := 0, cache := c.cache, trace := t3 }
  | none =>
    -- 4. Request quotes from agents
    let t4 := t3 ++ [Event.requestQuotes]
    match c.negotiator.RequestQuotes env.quotesCtxDone req with
    | Except.error err =>
      { result := Except.error
          (Wrap ErrAgentUnavailable "failed to get agent quotes" (some err)),
        success := false, fee := 0, cache := c.cache, trace := t4 }
    | Except.ok quotes =>
      -- 5. Select best route
      let t5 := t4 ++ [Event.selectBestRoute]
      match c.negotiator.SelectBestRoute quotes "balanced" with
      | Except.error err =>
        { result := Except.error
            (Wrap ErrAgentUnavailable "no suitable route found" (some err)),
          success := false, fee := 0, cache := c.cache, trace := t5 }
      | Except.ok bestRoute =>
        -- 6. Execute via selected agent (simulated)
        let t6 := t5 ++ [Event.settle]
        match env.settleCtxDone with
        | some e =>
          { result := Except.error (Wrap ErrTimeout "transaction timeout" (some e.Error)),
            success := false, fee := 0, cache := c.cache, trace := t6 }
        | none =>
          -- 7. Construct Response
          let resp : TransactionResponse :=
            { TxHash := "0x" ++ env.uuid,
              Status := "confirmed",
              BlockHeight := 1948201,
              FeeUsed := bestRoute.EstimatedFee }
          -- 8. Cache successful result
          match (if c.config.EnableCaching then c.cache else none) with
          | some cache =>
            { result := Except.ok resp, success := true, fee := 5 / 100,
              cache := some (cache.Set env.cacheSetNow (cacheKey req) (Any.response resp)),
              trace := t6 ++ [Event.cacheSet (cacheKey req)] }
          | none =>
            { result := Except.ok resp, success := true, fee := 5 / 100,
              cache := c.cache, trace := t6 }

/-- The body of `ExecuteTransaction`, up to its `return`. -/
def executeBody (c : EasyCashClient) (env : CallEnv) (req : TransactionRequest) : Body :=
  -- 1. Validate Request
  match ValidateTransactionRequest req with
  | some err =>
    { result := Except.error (Wrap ErrInvalidRequest "validation failed" (some err)),
      success := false, fee := 0, cache := c.cache, trace := [] }
  | none =>
    -- 2. Check Cache for similar recent transactions
    match (if c.config.EnableCaching then c.cache else none) with
    | some cache =>
      match cache.Get env.cacheGetNow (cacheKey req) with
      | some (Any.response resp) =>
        { result := Except.ok resp, success := true, fee := 0, cache := c.cache,
          trace := [Event.cacheGet (cacheKey req)] }
      | _ => executeAfterMiss c env req [Event.cacheGet (cacheKey req)]
    | none => executeAfterMiss c env req []

/-- The result of one call: the returned pair, the client afterwards (its cache
and the global metrics), and the steps taken. -/
structure Outcome where
  result : Except SDKError TransactionResponse
  client : EasyCashClient
  trace : List Event

/-- ExecuteTransaction constructs a transfer intent and executes it with full
validation.  The deferred function runs after the body, on every return path. -/
def EasyCashClient.ExecuteTransaction (c : EasyCashClient) (env : CallEnv)
    (req : TransactionRequest) : Outcome :=
  let b := executeBody c env req
  if c.config.EnableMetrics then
    { result := b.result,
      client := { c with cache := b.cache,
                         metrics := c.metrics.RecordTransaction b.success b.fee env.elapsed },
      trace := b.trace ++ [Event.recordTransaction b.success b.fee env.elapsed] }
  else
    { result := b.result, client := { c with cache := b.cache }, trace := b.trace }

/-! ## pkg/crypto -/

/-- An `ecdsa.PublicKey`: the coordinates of the point (the curve is not modelled). -/
structure PublicKey where
  X : Nat
  Y : Nat
  deriving DecidableEq, Repr

/-- An `ecdsa.PrivateKey`. -/
structure PrivateKey where
  PublicKey : PublicKey
  D : Nat
  deriving DecidableEq, Repr

/-- The library functions the package calls: `sha256.Sum256`, `ecdsa.Sign` (with
the randomness it reads from `rand.Reader` already drawn) and `ecdsa.Verify`. -/
structure CryptoLib where
  sha256Sum : List (Fin 256) → Fin 32 → Fin 256
  ecdsaSign : PrivateKey → List (Fin 256) → Except String (Nat × Nat)
  ecdsaVerify : PublicKey → List (Fin 256) → Nat → Nat → Bool

/-- Signer handles cryptographic signing operations for transactions. -/
structure Signer where
  privateKey : PrivateKey
  deriving DecidableEq, Repr

/-- NewSigner creates a new signer with a given private key. -/
def NewSigner (privKey : PrivateKey) : Signer :=
  { privateKey := privKey }

/-- The method `(*big.Int).Bytes` on a non-negative integer: its big-endian bytes
with no leading zero byte (no byte at all for zero). -/
def bigIntBytes (x : Nat) : List (Fin 256) :=
  ((Nat.digits 256 x).reverse).map (fun d => Fin.ofNat d)

/-- The method `(*big.Int).SetBytes`: the integer a big-endian byte slice denotes. -/
def bigIntSetBytes (bs : List (Fin 256)) : Nat :=
  bs.foldl (fun acc b => acc * 256 + b.val) 0

/-- The function `hex.EncodeToString` on a byte slice. -/
def hexEncodeBytes (bs : List (Fin 256)) : String :=
  String.mk (bs.flatMap hexByte)

/-- The bytes of a Go string: the UTF-8 encoding of its characters. -/
def goStringBytes (s : String) : List Nat :=
  s.toList.flatMap (fun c => (String.utf8EncodeChar c).map (fun b => b.toNat))

/-- The helper `fromHexChar` of `encoding/hex`, on a byte: the value of a hex
digit, `none` for any other byte. -/
def fromHexChar (b : Nat) : Option Nat :=
  if 48 ≤ b ∧ b ≤ 57 then some (b - 48)
  else if 97 ≤ b ∧ b ≤ 102 then some (b - 97 + 10)
  else if 65 ≤ b ∧ b ≤ 70 then some (b - 65 + 10)
  else none

/-- The function `hex.DecodeString` on the bytes of its argument: `none` when it
returns an error (a byte that is no hex digit, or an odd length). -/
def hexDecodeString : List Nat → Option (List (Fin 256))
  | [] => some []
  | [_] => none
  | a :: b :: rest =>
    match fromHexChar a, fromHexChar b, hexDecodeString rest with
    | some hi, some lo, some bs => some (Fin.ofNat (hi * 16 + lo) :: bs)
    | _, _, _ => none

/-- The signature text of `SignMessage` for the integers `r` and `sig`:
`"0x" + hex.EncodeToString(append(r.Bytes(), sig.Bytes()...))`. -/
def encodeSignature (r sig : Nat) : String :=
  "0x" ++ hexEncodeBytes (bigIntBytes r ++ bigIntBytes sig)

/-- SignMessage signs arbitrary data and returns hex-encoded signature. -/
def Signer.SignMessage (lib : CryptoLib) (s : Signer) (data : List (Fin 256)) :
    String × Option String :=
  let hash := lib.sha256Sum data
  match lib.ecdsaSign s.privateKey (List.ofFn hash) with
  | Except.error err => ("", some ("signing failed: " ++ err))
  | Except.ok (r, sig) => (encodeSignature r sig, none)

/-- The split of `VerifySignature`: `r` from the first half of the bytes, `s`
from the rest, the midpoint being `len(sigBytes)/2`. -/
def splitSignature (sigBytes : List (Fin 256)) : Nat × Nat :=
  (bigIntSetBytes (sigBytes.take (sigBytes.length / 2)),
   bigIntSetBytes (sigBytes.drop (sigBytes.length / 2)))

/-- The integers `VerifySignature` passes to `ecdsa.Verify` for a signature text:
`none` when the text is shorter than two bytes (the slice `signature[2:]` is out
of range) or is not hex after its first two bytes. -/
def signatureIntegers (signature : String) : Option (Nat × Nat) :=
  if (goStringBytes signature).length < 2 then none
  else
    match hexDecodeString ((goStringBytes signature).drop 2) with
    | none => none
    | some sigBytes => some (splitSignature sigBytes)

/-- VerifySignature verifies a signature against public key.  `none` is the
run-time panic of `signature[2:]` on a text shorter than two bytes. -/
def VerifySignature (lib : CryptoLib) (pubKey : PublicKey) (data : List (Fin 256))
    (signature : String) : Option Bool :=
  let hash := lib.sha256Sum data
  if (goStringBytes signature).length < 2 then none
  else
    match hexDecodeString ((goStringBytes signature).drop 2) with
    | none => some false
    | some sigBytes =>
      some (lib.ecdsaVerify pubKey (List.ofFn hash) (splitSignature sigBytes).1
        (splitSignature sigBytes).2)

/-! ## Concrete inputs -/

/-- The default configuration with an empty process environment. -/
def sampleConfig : SDKConfig := DefaultConfig (fun _ => "")

def zeroMetrics : Metrics :=
  { TotalTransactions := 0, SuccessfulTransactions := 0, FailedTransactions := 0,
    TotalFeePaid := 0, AverageLatency := 0 }

/-- The client `NewClient` builds from `sampleConfig`. -/
def sampleClient : EasyCashClient :=
  { config := sampleConfig,
    zk := NewProofGenerator "./circuits/spend.wasm",
    negotiator := NewNegotiator sampleConfig.Timeout,
    cache := some (NewCache sampleConfig.CacheTTL),
    metrics := zeroMetrics }

/-- A call during which no deadline fires. -/
def calmEnv (getNow setNow : Int) (uuid : String) : CallEnv :=
  { cacheGetNow := getNow, sha256Sum := fun _ _ => 0, quotesCtxDone := none,
    settleCtxDone := none, uuid := uuid, cacheSetNow := setNow, elapsed := 150000000 }

/-- A transfer of 5000.00 USDC on base. -/
def sampleRequest (referenceID : String) : TransactionRequest :=
  { ReferenceID := referenceID, Typ := IntentTransfer, Amount := "5000.00", Asset := "USDC",
    Recipient := "", SourceChain := ChainBase, TargetChain := "", IsShielded := true }

def sampleResponse : TransactionResponse :=
  { TxHash := "0x7d9f1c3a", Status := "confirmed", BlockHeight := 1948201,
    FeeUsed := "0.05 USDC" }

/-- A call whose context is done (deadline exceeded) when `RequestQuotes` selects. -/
def quotesDeadlineEnv : CallEnv :=
  { cacheGetNow := 1000, sha256Sum := fun _ _ => 0,
    quotesCtxDone := some CtxErr.DeadlineExceeded,
    settleCtxDone := some CtxErr.DeadlineExceeded, uuid := "7d9f1c3a",
    cacheSetNow := 1050, elapsed := 10000000 }

/-- A call whose context is done (deadline exceeded) only at the `select` of step 6. -/
def settleDeadlineEnv : CallEnv :=
  { cacheGetNow := 1000, sha256Sum := fun _ _ => 0,
    quotesCtxDone := none,
    settleCtxDone := some CtxErr.DeadlineExceeded, uuid := "7d9f1c3a",
    cacheSetNow := 1050, elapsed := 60000000 }

/-- Two quotes that agree on fee, time and security score. -/
def tiedQuote (agentID : String) : RouteQuote :=
  { AgentID := agentID, EstimatedFee := "0.04 USDC", EstimatedTime := 20 * Second,
    Route := ["base", "ethereum"], SecurityScore := 9 / 10 }

/-- The sample transfer with the amount replaced by `0`. -/
def zeroAmountRequest : TransactionRequest :=
  { sampleRequest "ref_zero" with Amount := "0" }

/-- A request that breaks all four validation rules. -/
def brokenRequest : TransactionRequest :=
  { ReferenceID := "ref_broken", Typ := IntentTransfer, Amount := "0", Asset := "USDC",
    Recipient := "0xZZZZ", SourceChain := "polygon", TargetChain := "bitcoin",
    IsShielded := false }

/-! ## Decimal literals, in the words of the specification -/

/-- The string `a` is the integer digits `ip`, optionally followed by `.` and the
fractional digits `fp`: one or more decimal digits, then optionally a point and
one or more decimal digits. -/
def DecimalLiteral (a : String) (ip fp : List Char) : Prop :=
  ip ≠ [] ∧ (∀ c ∈ ip, '0' ≤ c ∧ c ≤ '9') ∧ (∀ c ∈ fp, '0' ≤ c ∧ c ≤ '9') ∧
    ((fp = [] ∧ a.toList = ip) ∨ (fp ≠ [] ∧ a.toList = ip ++ '.' :: fp))

/-- The exact number a decimal literal denotes. -/
def decimalValue (ip fp : List Char) : ℚ :=
  (digitsValue (ip ++ fp) : ℚ) / (10 : ℚ) ^ fp.length

/-- The amount 0.00...02 with 323 zeros after the point: 2e-324. -/
def tinyAmount : String :=
  String.mk ('0' :: '.' :: (List.replicate 323 '0' ++ ['2']))

/-- The amount 1 followed by 309 zeros: 1e309. -/
def hugeAmount : String :=
  String.mk ('1' :: List.replicate 309 '0')

/-- The recipient of the example program and of the `valid address` test case. -/
def exampleRecipient : String := "0x742d35Cc6634C0532925a3b844Bc9e7595f0bEb"

/-- The recipient of the `invalid chars` test case. -/
def nonHexRecipient : String := "0xZZZZ35Cc6634C0532925a3b844Bc9e7595f0bEb"

/-- A well-formed address: `0x` and 40 hex digits. -/
def wellFormedRecipient : String := "0x52908400098527886E0F7030069857D2E4169EE7"

/-- The request of the example program `simple_transfer`. -/
def exampleRequest : TransactionRequest :=
  { ReferenceID := "ref_pay_salary_001", Typ := IntentTransfer, Amount := "5000.00",
    Asset := "USDC", Recipient := exampleRecipient, SourceChain := ChainBase,
    TargetChain := "", IsShielded := true }

/-- Two requests with different type, amount and asset and the same cache key
`transfer-1-2-USDC`. -/
def hyphenTypeRequest : TransactionRequest :=
  { ReferenceID := "ref_a", Typ := "transfer-1", Amount := "2", Asset := "USDC",
    Recipient := "", SourceChain := ChainBase, TargetChain := "", IsShielded := false }

def hyphenAssetRequest : TransactionRequest :=
  { ReferenceID := "ref_b", Typ := "transfer", Amount := "1", Asset := "2-USDC",
    Recipient := "", SourceChain := ChainBase, TargetChain := "", IsShielded := false }

/-- The call `RecordTransaction(true, 0.05, 150ms)`. -/
def sampleRecord : MetricsOp := MetricsOp.record true (5 / 100) 150000000

/-- A library in which `ecdsa.Sign` returns the pair `(r, sig)` and `ecdsa.Verify`
accepts exactly that pair. -/
def fixedSignatureLib (r sig : Nat) : CryptoLib :=
  { sha256Sum := fun _ _ => 0,
    ecdsaSign := fun _ _ => Except.ok (r, sig),
    ecdsaVerify := fun _ _ r2 s2 => decide (r2 = r ∧ s2 = sig) }

def sampleKey : PrivateKey :=
  { PublicKey := { X := 5, Y := 7 }, D := 11 }

/-- The x-coordinate of the base point of P-256, a 32-byte integer. -/
def p256Gx : Nat := 0x6B17D1F2E12C4247F8BCE6E563A440F277037D812DEB33A0F4A13945D898C296

/-- The `success` flags of the `RecordTransaction` calls in a trace, in order. -/
def recordCalls (trace : List Event) : List Bool :=
  trace.filterMap fun ev =>
    match ev with
    | Event.recordTransaction success _ _ => some success
    | _ => none


/-! ## Structure of a call -/

theorem exec_result (c : EasyCashClient) (env : CallEnv) (req : TransactionRequest) :
    (c.ExecuteTransaction env req).result = (executeBody c env req).result := by
  unfold EasyCashClient.ExecuteTransaction
  split <;> rfl

theorem exec_cache (c : EasyCashClient) (env : CallEnv) (req : TransactionRequest) :
    (c.ExecuteTransaction env req).client.cache = (executeBody c env req).cache := by
  unfold EasyCashClient.ExecuteTransaction
  split <;> rfl

theorem exec_config (c : EasyCashClient) (env : CallEnv) (req : TransactionRequest) :
    (c.ExecuteTransaction env req).client.config = c.config := by
  unfold EasyCashClient.ExecuteTransaction
  split <;> rfl

theorem exec_trace (c : EasyCashClient) (env : CallEnv) (req : TransactionRequest) :
    (c.ExecuteTransaction env req).trace =
      (executeBody c env req).trace ++
        (if c.config.EnableMetrics then
          [Event.recordTransaction (executeBody c env req).success (executeBody c env req).fee
            env.elapsed]
        else []) := by
  unfold EasyCashClient.ExecuteTransaction
  split <;> simp

/-- A successful pass through steps 3 to 8 with caching on leaves the response
under the request's key. -/
theorem afterMiss_ok_entry (c : EasyCashClient) (cache : Cache) (env : CallEnv)
    (req : TransactionRequest) (pre : List Event) (R : TransactionResponse)
    (hen : c.config.EnableCaching = true) (hc : c.cache = some cache)
    (h : (executeAfterMiss c env req pre).result = Except.ok R) :
    ∃ cache1 e, (executeAfterMiss c env req pre).cache = some cache1 ∧
      cache1.items (cacheKey req) = some e ∧ e.Value = Any.response R := by
  unfold executeAfterMiss at h ⊢
  simp only [hen, hc, if_true, ProofGenerator.GenerateSolvencyProof, ite_self] at h ⊢
  cases hq : c.negotiator.RequestQuotes env.quotesCtxDone req with
  | error err => simp [hq] at h
  | ok quotes =>
    cases hb : c.negotiator.SelectBestRoute quotes "balanced" with
    | error err => simp [hq, hb] at h
    | ok best =>
      cases hs : env.settleCtxDone with
      | some e => simp [hq, hb, hs] at h
      | none =>
        simp only [hq, hb, hs, Except.ok.injEq] at h ⊢
        subst h
        exact ⟨_, ⟨_, env.cacheSetNow + cache.ttl⟩, rfl, by simp [Cache.Set], rfl⟩

/-- A cached response that has not expired is returned at step 2; nothing else
happens and the cache is untouched. -/
theorem body_hit (c : EasyCashClient) (cache : Cache) (env : CallEnv)
    (req : TransactionRequest) (e : CacheEntry) (R : TransactionResponse)
    (hen : c.config.EnableCaching = true) (hc : c.cache = some cache)
    (hv : ValidateTransactionRequest req = none)
    (he : cache.items (cacheKey req) = some e) (hR : e.Value = Any.response R)
    (ht : env.cacheGetNow ≤ e.Expiration) :
    executeBody c env req =
      { result := Except.ok R, success := true, fee := 0, cache := c.cache,
        trace := [Event.cacheGet (cacheKey req)] } := by
  unfold executeBody
  simp only [hv, hen, hc, if_true, Cache.Get, he, not_lt.mpr ht, if_false, hR]

/-- A successful call with caching on leaves its response under the request's
key: it either found it there or has just written it. -/
theorem body_ok_entry (c : EasyCashClient) (cache : Cache) (env : CallEnv)
    (req : TransactionRequest) (R : TransactionResponse)
    (hen : c.config.EnableCaching = true) (hc : c.cache = some cache)
    (h : (executeBody c env req).result = Except.ok R) :
    ∃ cache1 e, (executeBody c env req).cache = some cache1 ∧
      cache1.items (cacheKey req) = some e ∧ e.Value = Any.response R := by
  unfold executeBody at h ⊢
  cases hv : ValidateTransactionRequest req with
  | some err => simp [hv] at h
  | none =>
    simp only [hv, hen, hc, if_true] at h ⊢
    cases hg : cache.Get env.cacheGetNow (cacheKey req) with
    | none =>
      simp only [hg] at h ⊢
      exact afterMiss_ok_entry c cache env req _ R hen hc h
    | some v =>
      cases v with
      | other tag =>
        simp only [hg] at h ⊢
        exact afterMiss_ok_entry c cache env req _ R hen hc h
      | response resp =>
        simp only [hg, Except.ok.injEq] at h ⊢
        subst h
        unfold Cache.Get at hg
        cases hi : cache.items (cacheKey req) with
        | none => simp [hi] at hg
        | some e =>
          simp only [hi] at hg
          split at hg
          · simp at hg
          · exact ⟨cache, e, rfl, hi, by simpa using hg⟩

/-- The route chosen among the two mock quotes of `RequestQuotes`. -/
theorem select_of_request (n : AgentNegotiator) (req : TransactionRequest)
    (preference : String) (quotes : List RouteQuote)
    (hq : n.RequestQuotes none req = Except.ok quotes) :
    n.SelectBestRoute quotes preference = Except.ok (quote001 req) := by
  simp only [AgentNegotiator.RequestQuotes, Except.ok.injEq] at hq
  subst hq
  simp only [AgentNegotiator.SelectBestRoute, selectLoop, List.foldl, quote001, quote002]
  norm_num

/-- Steps 3 to 8 when no deadline fires: the call succeeds with the first mock
quote's fee. -/
theorem afterMiss_calm_result (c : EasyCashClient) (env : CallEnv) (req : TransactionRequest)
    (pre : List Event) (hq : env.quotesCtxDone = none) (hs : env.settleCtxDone = none) :
    (executeAfterMiss c env req pre).result =
      Except.ok
        { TxHash := "0x" ++ env.uuid, Status := "confirmed", BlockHeight := 1948201,
          FeeUsed := "0.05 USDC" } := by
  unfold executeAfterMiss
  simp only [ProofGenerator.GenerateSolvencyProof, ite_self, hq, hs]
  cases hr : c.negotiator.RequestQuotes none req with
  | error e => simp [AgentNegotiator.RequestQuotes] at hr
  | ok quotes =>
    simp only [select_of_request _ _ _ _ hr, quote001]
    split <;> rfl

/-- A valid request that misses the cache, when no deadline fires, succeeds. -/
theorem body_calm_result (c : EasyCashClient) (env : CallEnv) (req : TransactionRequest)
    (hv : ValidateTransactionRequest req = none)
    (hmiss : ∀ cache, c.cache = some cache → cache.Get env.cacheGetNow (cacheKey req) = none)
    (hq : env.quotesCtxDone = none) (hs : env.settleCtxDone = none) :
    (executeBody c env req).result =
      Except.ok
        { TxHash := "0x" ++ env.uuid, Status := "confirmed", BlockHeight := 1948201,
          FeeUsed := "0.05 USDC" } := by
  unfold executeBody
  simp only [hv]
  split
  · rename_i cache hc
    have hc2 : c.cache = some cache := by
      split at hc
      · exact hc
      · cases hc
    rw [hmiss cache hc2]
    exact afterMiss_calm_result c env req _ hq hs
  · exact afterMiss_calm_result c env req _ hq hs

/-! ## C1: the cache hit -/

/-- C1: with caching enabled, let `r1` and `r2` pass validation and agree on type,
amount and asset, with different reference IDs.  If the call for `r1` succeeds
with response `R`, then afterwards the cache holds an entry for `R` under the
shared key, and every call for `r2` whose cache read is not after that entry's
expiration returns `R`, leaves the cache as it was, and takes none of the steps
RequestQuotes, SelectBestRoute, settlement or cache write. -/
theorem cache_hit_short_circuit (c : EasyCashClient) (cache : Cache) (env1 env2 : CallEnv)
    (r1 r2 : TransactionRequest) (R : TransactionResponse)
    (hen : c.config.EnableCaching = true) (hc : c.cache = some cache)
    (_hv1 : ValidateTransactionRequest r1 = none)
    (hv2 : ValidateTransactionRequest r2 = none)
    (hty : r1.Typ = r2.Typ) (ham : r1.Amount = r2.Amount) (has : r1.Asset = r2.Asset)
    (_hid : r1.ReferenceID ≠ r2.ReferenceID)
    (h1 : (c.ExecuteTransaction env1 r1).result = Except.ok R) :
    ∃ cache1 e,
      (c.ExecuteTransaction env1 r1).client.cache = some cache1 ∧
      cache1.items (cacheKey r1) = some e ∧ e.Value = Any.response R ∧
      (env2.cacheGetNow ≤ e.Expiration →
        ((c.ExecuteTransaction env1 r1).client.ExecuteTransaction env2 r2).result
            = Except.ok R ∧
        ((c.ExecuteTransaction env1 r1).client.ExecuteTransaction env2 r2).client.cache
            = some cache1 ∧
        Event.requestQuotes ∉
          ((c.ExecuteTransaction env1 r1).client.ExecuteTransaction env2 r2).trace ∧
        Event.selectBestRoute ∉
          ((c.ExecuteTransaction env1 r1).client.ExecuteTransaction env2 r2).trace ∧
        Event.settle ∉
          ((c.ExecuteTransaction env1 r1).client.ExecuteTransaction env2 r2).trace ∧
        ∀ k, Event.cacheSet k ∉
          ((c.ExecuteTransaction env1 r1).client.ExecuteTransaction env2 r2).trace) := by
  rw [exec_result] at h1
  obtain ⟨cache1, e, hc1, he, hR⟩ := body_ok_entry c cache env1 r1 R hen hc h1
  have hcache : (c.ExecuteTransaction env1 r1).client.cache = some cache1 := by
    rw [exec_cache]; exact hc1
  have hkey : cacheKey r2 = cacheKey r1 := by
    simp [cacheKey, hty, ham, has]
  refine ⟨cache1, e, hcache, he, hR, ?_⟩
  intro ht
  have hen1 : (c.ExecuteTransaction env1 r1).client.config.EnableCaching = true := by
    rw [exec_config]; exact hen
  have hb := body_hit (c.ExecuteTransaction env1 r1).client cache1 env2 r2 e R hen1 hcache
    hv2 (by rw [hkey]; exact he) hR ht
  rw [exec_result, exec_cache, exec_trace, hb]
  refine ⟨rfl, hcache, ?_, ?_, ?_, ?_⟩
  · split <;> simp
  · split <;> simp
  · split <;> simp
  · intro k
    split <;> simp

/-- The cache hit at the sample transfer: `ref_pay_salary_001` runs the full
pipeline at clock 1000, `ref_pay_salary_002` follows at clock 5000. -/
theorem cache_hit_short_circuit_witness :
    ∃ cache1 e,
      (sampleClient.ExecuteTransaction (calmEnv 1000 1050 "7d9f1c3a")
        (sampleRequest "ref_pay_salary_001")).client.cache = some cache1 ∧
      cache1.items (cacheKey (sampleRequest "ref_pay_salary_001")) = some e ∧
      e.Value = Any.response sampleResponse ∧
      ((calmEnv 5000 5050 "0b2e44f0").cacheGetNow ≤ e.Expiration →
        ((sampleClient.ExecuteTransaction (calmEnv 1000 1050 "7d9f1c3a")
            (sampleRequest "ref_pay_salary_001")).client.ExecuteTransaction
          (calmEnv 5000 5050 "0b2e44f0") (sampleRequest "ref_pay_salary_002")).result
            = Except.ok sampleResponse ∧
        ((sampleClient.ExecuteTransaction (calmEnv 1000 1050 "7d9f1c3a")
            (sampleRequest "ref_pay_salary_001")).client.ExecuteTransaction
          (calmEnv 5000 5050 "0b2e44f0") (sampleRequest "ref_pay_salary_002")).client.cache
            = some cache1 ∧
        Event.requestQuotes ∉
          ((sampleClient.ExecuteTransaction (calmEnv 1000 1050 "7d9f1c3a")
            (sampleRequest "ref_pay_salary_001")).client.ExecuteTransaction
          (calmEnv 5000 5050 "0b2e44f0") (sampleRequest "ref_pay_salary_002")).trace ∧
        Event.selectBestRoute ∉
          ((sampleClient.ExecuteTransaction (calmEnv 1000 1050 "7d9f1c3a")
            (sampleRequest "ref_pay_salary_001")).client.ExecuteTransaction
          (calmEnv 5000 5050 "0b2e44f0") (sampleRequest "ref_pay_salary_002")).trace ∧
        Event.settle ∉
          ((sampleClient.ExecuteTransaction (calmEnv 1000 1050 "7d9f1c3a")
            (sampleRequest "ref_pay_salary_001")).client.ExecuteTransaction
          (calmEnv 5000 5050 "0b2e44f0") (sampleRequest "ref_pay_salary_002")).trace ∧
        ∀ k, Event.cacheSet k ∉
          ((sampleClient.ExecuteTransaction (calmEnv 1000 1050 "7d9f1c3a")
            (sampleRequest "ref_pay_salary_001")).client.ExecuteTransaction
          (calmEnv 5000 5050 "0b2e44f0") (sampleRequest "ref_pay_salary_002")).trace) :=
  cache_hit_short_circuit sampleClient (NewCache sampleConfig.CacheTTL)
    (calmEnv 1000 1050 "7d9f1c3a") (calmEnv 5000 5050 "0b2e44f0")
    (sampleRequest "ref_pay_salary_001") (sampleRequest "ref_pay_salary_002") sampleResponse
    rfl rfl (by decide) (by decide) rfl rfl rfl (by decide)
    (by
      rw [exec_result]
      exact body_calm_result sampleClient (calmEnv 1000 1050 "7d9f1c3a")
        (sampleRequest "ref_pay_salary_001") (by decide)
        (by intro cache hc; cases hc; rfl) rfl rfl)

/-! ## C2: expiry on read -/

/-- What a read of `key` sees is decided by the entry under `key` alone. -/
theorem get_eq_of_items_eq (c d : Cache) (now : Int) (key : String)
    (h : c.items key = d.items key) : c.Get now key = d.Get now key := by
  unfold Cache.Get
  rw [h]

/-- A sweep keeps or removes the entry under a key; it never alters it. -/
theorem cleanupPass_items (c : Cache) (now : Int) (key : String) :
    (c.cleanupPass now).items key = none ∨ (c.cleanupPass now).items key = c.items key := by
  unfold Cache.cleanupPass
  cases h : c.items key with
  | none => simp [h]
  | some e =>
    by_cases hx : e.Expiration < now
    · left; simp [h, hx]
    · right; simp [h, hx]

/-- After any number of sweeps, the entry under a key is the one that was there
before, or none. -/
theorem sweeps_items (sweeps : List Int) (c : Cache) (key : String) :
    (sweeps.foldl Cache.cleanupPass c).items key = none ∨
      (sweeps.foldl Cache.cleanupPass c).items key = c.items key := by
  induction sweeps generalizing c with
  | nil => right; rfl
  | cons s rest ih =>
    simp only [List.foldl]
    rcases ih (c.cleanupPass s) with h | h
    · left; exact h
    · rcases cleanupPass_items c s key with h2 | h2
      · left; rw [h, h2]
      · right; rw [h, h2]

/-- C2, counterexample: with a TTL of 60 s, a value stored at time 100 is still
returned by a read at the expiration instant 100 + TTL; the read is a hit at
`t = t0 + d`, not a miss. -/
theorem get_at_expiration_hits :
    (100 : Int) + (NewCache (60 * Second)).ttl ≤ 100 + 60 * Second ∧
    (((NewCache (60 * Second)).Set 100 "transfer-5000.00-USDC"
        (Any.response sampleResponse)).Get (100 + 60 * Second) "transfer-5000.00-USDC")
      = some (Any.response sampleResponse) := by
  constructor
  · exact le_refl _
  · simp [Cache.Get, Cache.Set, NewCache]

/-- Sweeps that run no later than an entry's expiration leave the entry in place. -/
theorem sweeps_keep_live (sweeps : List Int) (c : Cache) (key : String) (e : CacheEntry)
    (he : c.items key = some e) (hs : ∀ s ∈ sweeps, s ≤ e.Expiration) :
    (sweeps.foldl Cache.cleanupPass c).items key = some e := by
  induction sweeps generalizing c with
  | nil => exact he
  | cons s rest ih =>
    simp only [List.foldl]
    apply ih
    · have hle : ¬ e.Expiration < s := not_lt.mpr (hs s (List.mem_cons_self _ _))
      simp [Cache.cleanupPass, he, hle]
    · intro x hx
      exact hs x (List.mem_cons_of_mem _ hx)

/-- C2, amended: for every cache with TTL `d`, every key `k` and value `v` stored
by `Set` at time `t0`: a read at any time `t` strictly after the expiration
`t0 + d` is a miss, whether no sweep, one sweep or many sweeps (at any times) ran
in between; and a read at the instant `t0 + d` exactly is still a hit with `v`,
with no sweep and after any sweeps that ran up to that instant. -/
theorem get_after_expiration_misses (c : Cache) (k : String) (v : Any) (t0 t : Int)
    (sweeps : List Int) (h : t0 + c.ttl < t) :
    (sweeps.foldl Cache.cleanupPass (c.Set t0 k v)).Get t k = none ∧
    (c.Set t0 k v).Get (t0 + c.ttl) k = some v ∧
    (∀ early : List Int, (∀ s ∈ early, s ≤ t0 + c.ttl) →
      (early.foldl Cache.cleanupPass (c.Set t0 k v)).Get (t0 + c.ttl) k = some v) := by
  have hs : (c.Set t0 k v).items k = some { Value := v, Expiration := t0 + c.ttl } := by
    simp [Cache.Set]
  have hearly : ∀ early : List Int, (∀ s ∈ early, s ≤ t0 + c.ttl) →
      (early.foldl Cache.cleanupPass (c.Set t0 k v)).Get (t0 + c.ttl) k = some v := by
    intro early hle
    have hi := sweeps_keep_live early (c.Set t0 k v) k _ hs hle
    simp [Cache.Get, hi]
  refine ⟨?_, hearly [] (by simp), hearly⟩
  rcases sweeps_items sweeps (c.Set t0 k v) k with hi | hi
  · simp [Cache.Get, hi]
  · simp [Cache.Get, hi, hs, h]

/-- A read one nanosecond after the expiration of a 60 s entry misses, with two
sweeps in between and with none; a read at the expiration instant itself hits,
with no sweep and after a sweep half-way. -/
theorem get_after_expiration_misses_witness :
    ([100 + 30 * Second, 100 + 61 * Second].foldl Cache.cleanupPass
        ((NewCache (60 * Second)).Set 100 "transfer-5000.00-USDC"
          (Any.response sampleResponse))).Get (100 + 60 * Second + 1)
        "transfer-5000.00-USDC" = none ∧
    ([].foldl Cache.cleanupPass
        ((NewCache (60 * Second)).Set 100 "transfer-5000.00-USDC"
          (Any.response sampleResponse))).Get (100 + 60 * Second + 1)
        "transfer-5000.00-USDC" = none ∧
    ((NewCache (60 * Second)).Set 100 "transfer-5000.00-USDC"
        (Any.response sampleResponse)).Get (100 + (NewCache (60 * Second)).ttl)
        "transfer-5000.00-USDC" = some (Any.response sampleResponse) ∧
    ([100 + 30 * Second].foldl Cache.cleanupPass
        ((NewCache (60 * Second)).Set 100 "transfer-5000.00-USDC"
          (Any.response sampleResponse))).Get (100 + (NewCache (60 * Second)).ttl)
        "transfer-5000.00-USDC" = some (Any.response sampleResponse) :=
  ⟨(get_after_expiration_misses (NewCache (60 * Second)) "transfer-5000.00-USDC"
      (Any.response sampleResponse) 100 (100 + 60 * Second + 1)
      [100 + 30 * Second, 100 + 61 * Second] (by decide)).1,
   (get_after_expiration_misses (NewCache (60 * Second)) "transfer-5000.00-USDC"
      (Any.response sampleResponse) 100 (100 + 60 * Second + 1) [] (by decide)).1,
   (get_after_expiration_misses (NewCache (60 * Second)) "transfer-5000.00-USDC"
      (Any.response sampleResponse) 100 (100 + 60 * Second + 1) [] (by decide)).2.1,
   (get_after_expiration_misses (NewCache (60 * Second)) "transfer-5000.00-USDC"
      (Any.response sampleResponse) 100 (100 + 60 * Second + 1) [] (by decide)).2.2
      [100 + 30 * Second] (by decide)⟩

/-! ## Route selection -/

theorem selectLoop_nil (best : RouteQuote) : selectLoop best [] = best := rfl

theorem selectLoop_cons (best q : RouteQuote) (rest : List RouteQuote) :
    selectLoop best (q :: rest) =
      selectLoop (if q.SecurityScore > best.SecurityScore then q else best) rest := rfl

/-- The loop returns its starting quote or a quote of the list. -/
theorem selectLoop_mem (quotes : List RouteQuote) (best : RouteQuote) :
    selectLoop best quotes = best ∨ selectLoop best quotes ∈ quotes := by
  induction quotes generalizing best with
  | nil => left; rfl
  | cons q rest ih =>
    rw [selectLoop_cons]
    by_cases hq : q.SecurityScore > best.SecurityScore
    · rw [if_pos hq]
      rcases ih q with h | h
      · right; rw [h]; exact List.mem_cons_self _ _
      · right; exact List.mem_cons_of_mem _ h
    · rw [if_neg hq]
      rcases ih best with h | h
      · left; exact h
      · right; exact List.mem_cons_of_mem _ h

/-- The loop keeps `best` when no quote scores strictly higher; otherwise it
returns the first quote that scores strictly above `best` and above everything
before it, and nothing after it scores strictly higher. -/
theorem selectLoop_first_max (quotes : List RouteQuote) (best : RouteQuote) :
    (selectLoop best quotes = best ∧ ∀ x ∈ quotes, x.SecurityScore ≤ best.SecurityScore) ∨
    (∃ before q after, quotes = before ++ q :: after ∧ selectLoop best quotes = q ∧
      best.SecurityScore < q.SecurityScore ∧
      (∀ x ∈ before, x.SecurityScore < q.SecurityScore) ∧
      (∀ x ∈ after, x.SecurityScore ≤ q.SecurityScore)) := by
  induction quotes generalizing best with
  | nil => left; exact ⟨rfl, by simp⟩
  | cons q rest ih =>
    rw [selectLoop_cons]
    by_cases hq : q.SecurityScore > best.SecurityScore
    · rw [if_pos hq]
      right
      rcases ih q with ⟨h1, h2⟩ | ⟨before, r, after, h1, h2, h3, h4, h5⟩
      · exact ⟨[], q, rest, rfl, h1, hq, by simp, h2⟩
      · refine ⟨q :: before, r, after, by rw [h1]; rfl, h2, lt_trans hq h3, ?_, h5⟩
        intro x hx
        rcases List.mem_cons.mp hx with rfl | hx
        · exact h3
        · exact h4 x hx
    · rw [if_neg hq]
      rcases ih best with ⟨h1, h2⟩ | ⟨before, r, after, h1, h2, h3, h4, h5⟩
      · left
        refine ⟨h1, ?_⟩
        intro x hx
        rcases List.mem_cons.mp hx with rfl | hx
        · exact not_lt.mp hq
        · exact h2 x hx
      · right
        refine ⟨q :: before, r, after, by rw [h1]; rfl, h2, h3, ?_, h5⟩
        intro x hx
        rcases List.mem_cons.mp hx with rfl | hx
        · exact lt_of_le_of_lt (not_lt.mp hq) h3
        · exact h4 x hx

/-- On a non-empty list `SelectBestRoute` returns the first quote of highest
security score, whatever the preference. -/
theorem select_decomposition (n : AgentNegotiator) (q0 : RouteQuote) (rest : List RouteQuote)
    (preference : String) :
    ∃ before q after, q0 :: rest = before ++ q :: after ∧
      n.SelectBestRoute (q0 :: rest) preference = Except.ok q ∧
      (∀ x ∈ before, x.SecurityScore < q.SecurityScore) ∧
      (∀ x ∈ after, x.SecurityScore ≤ q.SecurityScore) := by
  have h0 : n.SelectBestRoute (q0 :: rest) preference = Except.ok (selectLoop q0 rest) := by
    simp [AgentNegotiator.SelectBestRoute, selectLoop_cons]
  rw [h0]
  rcases selectLoop_first_max rest q0 with ⟨h1, h2⟩ | ⟨before, r, after, h1, h2, h3, h4, h5⟩
  · exact ⟨[], q0, rest, rfl, by rw [h1], by simp, h2⟩
  · refine ⟨q0 :: before, r, after, by rw [h1]; rfl, by rw [h2], ?_, h5⟩
    intro x hx
    rcases List.mem_cons.mp hx with rfl | hx
    · exact h3
    · exact h4 x hx

/-! ## C3: the two mock quotes under `safest` and `cheapest` -/

/-- C3, counterexample: on the two quotes agent-001 (fee 0.05, 15 s, security 0.98)
and agent-002 (fee 0.03, 30 s, security 0.85), `SelectBestRoute` with preference
`cheapest` returns the quote of agent-001, not the cheaper quote of agent-002. -/
theorem cheapest_selects_agent001 :
    (NewNegotiator (30 * Second)).SelectBestRoute
        [quote001 (sampleRequest "ref_pay_salary_001"),
         quote002 (sampleRequest "ref_pay_salary_001")] "cheapest"
      = Except.ok (quote001 (sampleRequest "ref_pay_salary_001")) ∧
    (NewNegotiator (30 * Second)).SelectBestRoute
        [quote001 (sampleRequest "ref_pay_salary_001"),
         quote002 (sampleRequest "ref_pay_salary_001")] "cheapest"
      ≠ Except.ok (quote002 (sampleRequest "ref_pay_salary_001")) := by
  have h : (NewNegotiator (30 * Second)).SelectBestRoute
        [quote001 (sampleRequest "ref_pay_salary_001"),
         quote002 (sampleRequest "ref_pay_salary_001")] "cheapest"
      = Except.ok (quote001 (sampleRequest "ref_pay_salary_001")) := by
    simp only [AgentNegotiator.SelectBestRoute, selectLoop, List.foldl, quote001, quote002]
    norm_num
  refine ⟨h, ?_⟩
  rw [h]
  simp [quote001, quote002]

/-- C3, amended: on the two quotes agent-001 (security 0.98) and agent-002
(security 0.85), in either order, `SelectBestRoute` returns the quote of
agent-001 for every preference, `safest` and `cheapest` included. -/
theorem mock_quotes_select_agent001 (n : AgentNegotiator) (req : TransactionRequest)
    (preference : String) :
    n.SelectBestRoute [quote001 req, quote002 req] preference = Except.ok (quote001 req) ∧
    n.SelectBestRoute [quote002 req, quote001 req] preference = Except.ok (quote001 req) ∧
    n.SelectBestRoute [quote001 req, quote002 req] "safest" = Except.ok (quote001 req) ∧
    n.SelectBestRoute [quote001 req, quote002 req] "cheapest" = Except.ok (quote001 req) := by
  refine ⟨?_, ?_, ?_, ?_⟩ <;>
  · simp only [AgentNegotiator.SelectBestRoute, selectLoop, List.foldl, quote001, quote002]
    norm_num

/-! ## C4: ties -/

/-- C4, counterexample: two quotes that tie on fee, time and security score, listed
as agent-b then agent-a.  `SelectBestRoute` returns agent-b, although agent-a is
the lexicographically smaller identifier; on the permuted list it returns
agent-a, so the selection changes with the order of the input. -/
theorem tie_follows_input_order :
    (tiedQuote "agent-b").SecurityScore = (tiedQuote "agent-a").SecurityScore ∧
    (tiedQuote "agent-a").AgentID < (tiedQuote "agent-b").AgentID ∧
    tiedQuote "agent-a" ≠ tiedQuote "agent-b" ∧
    (NewNegotiator (30 * Second)).SelectBestRoute
        [tiedQuote "agent-b", tiedQuote "agent-a"] "balanced"
      = Except.ok (tiedQuote "agent-b") ∧
    (NewNegotiator (30 * Second)).SelectBestRoute
        [tiedQuote "agent-a", tiedQuote "agent-b"] "balanced"
      = Except.ok (tiedQuote "agent-a") := by
  have hlt : (tiedQuote "agent-a").AgentID < (tiedQuote "agent-b").AgentID := by
    show "agent-a" < "agent-b"
    rw [String.lt_iff_toList_lt]
    decide
  refine ⟨rfl, hlt, by simp [tiedQuote], ?_, ?_⟩ <;>
  · simp only [AgentNegotiator.SelectBestRoute, selectLoop, List.foldl, tiedQuote]
    norm_num

/-- C4, amended: for every non-empty quote list whose SecurityScore values lie in
[0.0, 1.0] (the range the source documents; it excludes NaN) and every
preference, `SelectBestRoute` returns the quote that comes first in the input
among those of the highest SecurityScore: every quote before it scores strictly
lower and no quote after it scores higher.  Among quotes that tie, the position
in the input decides, not the AgentID. -/
theorem select_first_of_highest (n : AgentNegotiator) (quotes : List RouteQuote)
    (preference : String) (h : quotes ≠ [])
    (_hrange : ∀ x ∈ quotes, 0 ≤ x.SecurityScore ∧ x.SecurityScore ≤ 1) :
    ∃ before q after, quotes = before ++ q :: after ∧
      n.SelectBestRoute quotes preference = Except.ok q ∧
      (∀ x ∈ before, x.SecurityScore < q.SecurityScore) ∧
      (∀ x ∈ after, x.SecurityScore ≤ q.SecurityScore) := by
  cases quotes with
  | nil => exact absurd rfl h
  | cons q0 rest => exact select_decomposition n q0 rest preference

/-- The first of the highest on the list agent-b (0.9), agent-002 (0.85),
agent-a (0.9). -/
theorem select_first_of_highest_witness :
    ∃ before q after,
      [tiedQuote "agent-b", quote002 brokenRequest, tiedQuote "agent-a"]
        = before ++ q :: after ∧
      (NewNegotiator (30 * Second)).SelectBestRoute
        [tiedQuote "agent-b", quote002 brokenRequest, tiedQuote "agent-a"] "cheapest"
        = Except.ok q ∧
      (∀ x ∈ before, x.SecurityScore < q.SecurityScore) ∧
      (∀ x ∈ after, x.SecurityScore ≤ q.SecurityScore) :=
  select_first_of_highest (NewNegotiator (30 * Second))
    [tiedQuote "agent-b", quote002 brokenRequest, tiedQuote "agent-a"] "cheapest"
    (by simp)
    (by
      intro x hx
      simp only [List.mem_cons, List.mem_singleton, List.not_mem_nil, or_false] at hx
      rcases hx with rfl | rfl | rfl <;> simp only [quote002, tiedQuote] <;> norm_num)

/-! ## C5: the empty quote list -/

/-- C5: for every quote list and every preference, `SelectBestRoute` returns an
error exactly when the list is empty (the error `no quotes available`, and no
quote), and on a non-empty list it returns a quote that is an element of the
list. -/
theorem select_error_iff_empty (n : AgentNegotiator) (quotes : List RouteQuote)
    (preference : String) :
    ((∃ err, n.SelectBestRoute quotes preference = Except.error err) ↔ quotes = []) ∧
    (quotes = [] →
      n.SelectBestRoute quotes preference = Except.error "no quotes available") ∧
    (quotes ≠ [] →
      ∃ q, n.SelectBestRoute quotes preference = Except.ok q ∧ q ∈ quotes) := by
  cases quotes with
  | nil => simp [AgentNegotiator.SelectBestRoute]
  | cons q0 rest =>
    have hmem : selectLoop q0 (q0 :: rest) ∈ q0 :: rest := by
      rcases selectLoop_mem (q0 :: rest) q0 with h | h
      · rw [h]; exact List.mem_cons_self _ _
      · exact h
    simp only [AgentNegotiator.SelectBestRoute]
    refine ⟨?_, ?_, ?_⟩
    · simp
    · simp
    · intro _
      exact ⟨_, rfl, hmem⟩

/-- The empty list gives the error; a two-quote list gives one of its quotes. -/
theorem select_error_iff_empty_witness :
    (NewNegotiator (30 * Second)).SelectBestRoute [] "balanced"
      = Except.error "no quotes available" ∧
    ∃ q, (NewNegotiator (30 * Second)).SelectBestRoute
        [quote002 brokenRequest, quote001 brokenRequest] "balanced" = Except.ok q ∧
      q ∈ [quote002 brokenRequest, quote001 brokenRequest] :=
  ⟨(select_error_iff_empty (NewNegotiator (30 * Second)) [] "balanced").2.1 rfl,
   (select_error_iff_empty (NewNegotiator (30 * Second))
      [quote002 brokenRequest, quote001 brokenRequest] "balanced").2.2 (by simp)⟩

/-! ## Error paths of a call -/

theorem recordCalls_append (a b : List Event) :
    recordCalls (a ++ b) = recordCalls a ++ recordCalls b := by
  simp [recordCalls, List.filterMap_append]

/-- The body of a call never records metrics itself: that is left to the
deferred function. -/
theorem afterMiss_recordCalls (c : EasyCashClient) (env : CallEnv) (req : TransactionRequest)
    (pre : List Event) :
    recordCalls (executeAfterMiss c env req pre).trace = recordCalls pre := by
  unfold executeAfterMiss
  simp only [ProofGenerator.GenerateSolvencyProof, ite_self]
  generalize ht3 : (if (c.config.EnableZKProofs && req.IsShielded) = true
      then pre ++ [Event.generateProof] else pre) = t3
  have hpre : recordCalls t3 = recordCalls pre := by
    subst ht3
    split <;> simp [recordCalls, List.filterMap_append]
  cases hq : c.negotiator.RequestQuotes env.quotesCtxDone req with
  | error err =>
    simp only [recordCalls_append, hpre]
    simp [recordCalls]
  | ok quotes =>
    simp only []
    cases hb : c.negotiator.SelectBestRoute quotes "balanced" with
    | error err =>
      simp only [recordCalls_append, hpre]
      simp [recordCalls]
    | ok best =>
      simp only []
      cases hs : env.settleCtxDone with
      | some e =>
        simp only [recordCalls_append, hpre]
        simp [recordCalls]
      | none =>
        simp only []
        split <;>
        · simp only [recordCalls_append, hpre]
          simp [recordCalls]

/-- When steps 3 to 8 end in an error, `success` is still false, the cache is the
one the call started with, and no cache write was added to the steps. -/
theorem afterMiss_error (c : EasyCashClient) (env : CallEnv) (req : TransactionRequest)
    (pre : List Event) (err : SDKError)
    (h : (executeAfterMiss c env req pre).result = Except.error err) :
    (executeAfterMiss c env req pre).success = false ∧
    (executeAfterMiss c env req pre).fee = 0 ∧
    (executeAfterMiss c env req pre).cache = c.cache ∧
    ∀ k, Event.cacheSet k ∈ (executeAfterMiss c env req pre).trace → Event.cacheSet k ∈ pre := by
  unfold executeAfterMiss at h ⊢
  simp only [ProofGenerator.GenerateSolvencyProof, ite_self] at h ⊢
  generalize ht3 : (if (c.config.EnableZKProofs && req.IsShielded) = true
      then pre ++ [Event.generateProof] else pre) = t3 at h ⊢
  have hpre : ∀ k, Event.cacheSet k ∈ t3 → Event.cacheSet k ∈ pre := by
    intro k hk
    subst ht3
    split at hk
    · simpa using hk
    · exact hk
  cases hq : c.negotiator.RequestQuotes env.quotesCtxDone req with
  | error e =>
    refine ⟨rfl, rfl, rfl, ?_⟩
    intro k hk
    apply hpre k
    simpa using hk
  | ok quotes =>
    simp only []
    cases hb : c.negotiator.SelectBestRoute quotes "balanced" with
    | error e =>
      refine ⟨rfl, rfl, rfl, ?_⟩
      intro k hk
      apply hpre k
      simpa using hk
    | ok best =>
      simp only []
      cases hs : env.settleCtxDone with
      | some e =>
        refine ⟨rfl, rfl, rfl, ?_⟩
        intro k hk
        apply hpre k
        simpa using hk
      | none =>
        simp only [hq, hb, hs] at h
        split at h <;> simp at h

/-- A request that fails validation returns at step 1. -/
theorem body_invalid (c : EasyCashClient) (env : CallEnv) (req : TransactionRequest)
    (verr : String) (h : ValidateTransactionRequest req = some verr) :
    executeBody c env req =
      { result := Except.error (Wrap ErrInvalidRequest "validation failed" (some verr)),
        success := false, fee := 0, cache := c.cache, trace := [] } := by
  unfold executeBody
  simp only [h]

theorem body_recordCalls (c : EasyCashClient) (env : CallEnv) (req : TransactionRequest) :
    recordCalls (executeBody c env req).trace = [] := by
  unfold executeBody
  cases hv : ValidateTransactionRequest req with
  | some verr => rfl
  | none =>
    simp only []
    split
    · split
      · rfl
      · rw [afterMiss_recordCalls]; rfl
    · rw [afterMiss_recordCalls]; rfl

/-- When the body of a call ends in an error, `success` is false, `fee` is zero,
the cache is the one the call started with and no step was a cache write. -/
theorem body_error (c : EasyCashClient) (env : CallEnv) (req : TransactionRequest)
    (err : SDKError) (h : (executeBody c env req).result = Except.error err) :
    (executeBody c env req).success = false ∧
    (executeBody c env req).fee = 0 ∧
    (executeBody c env req).cache = c.cache ∧
    ∀ k, Event.cacheSet k ∉ (executeBody c env req).trace := by
  unfold executeBody at h ⊢
  cases hv : ValidateTransactionRequest req with
  | some verr => exact ⟨rfl, rfl, rfl, by simp⟩
  | none =>
    simp only [hv] at h
    simp only []
    split
    · rename_i cache hc
      simp only [hc] at h
      split
      · rename_i resp hg
        simp [hg] at h
      · rename_i hg
        split at h
        · rename_i resp hg2
          exact absurd hg2 (hg resp)
        · obtain ⟨h1, h2, h3, h4⟩ := afterMiss_error c env req _ err h
          exact ⟨h1, h2, h3, fun k hk => by simpa using h4 k hk⟩
    · rename_i hc
      simp only [hc] at h
      obtain ⟨h1, h2, h3, h4⟩ := afterMiss_error c env req _ err h
      exact ⟨h1, h2, h3, fun k hk => by simpa using h4 k hk⟩

/-- A valid request that misses the cache, when the context is done as
`RequestQuotes` selects, fails with the code AGENT_UNAVAILABLE and the context
error as cause. -/
theorem body_quotes_ctx_done (c : EasyCashClient) (env : CallEnv) (req : TransactionRequest)
    (e : CtxErr) (hv : ValidateTransactionRequest req = none)
    (hmiss : ∀ cache, c.cache = some cache → cache.Get env.cacheGetNow (cacheKey req) = none)
    (hq : env.quotesCtxDone = some e) :
    (executeBody c env req).result =
      Except.error (Wrap ErrAgentUnavailable "failed to get agent quotes" (some e.Error)) := by
  have hafter : ∀ pre, (executeAfterMiss c env req pre).result =
      Except.error (Wrap ErrAgentUnavailable "failed to get agent quotes" (some e.Error)) := by
    intro pre
    unfold executeAfterMiss
    simp only [ProofGenerator.GenerateSolvencyProof, ite_self, hq, AgentNegotiator.RequestQuotes]
  unfold executeBody
  simp only [hv]
  split
  · rename_i cache hc
    have hc2 : c.cache = some cache := by
      split at hc
      · exact hc
      · cases hc
    rw [hmiss cache hc2]
    exact hafter _
  · exact hafter _

/-- A valid request that misses the cache and gets its quotes, when the context
is done at the `select` of step 6, fails with the code TIMEOUT. -/
theorem body_settle_ctx_done (c : EasyCashClient) (env : CallEnv) (req : TransactionRequest)
    (e : CtxErr) (hv : ValidateTransactionRequest req = none)
    (hmiss : ∀ cache, c.cache = some cache → cache.Get env.cacheGetNow (cacheKey req) = none)
    (hq : env.quotesCtxDone = none) (hs : env.settleCtxDone = some e) :
    (executeBody c env req).result =
      Except.error (Wrap ErrTimeout "transaction timeout" (some e.Error)) := by
  have hafter : ∀ pre, (executeAfterMiss c env req pre).result =
      Except.error (Wrap ErrTimeout "transaction timeout" (some e.Error)) := by
    intro pre
    unfold executeAfterMiss
    simp only [ProofGenerator.GenerateSolvencyProof, ite_self, hq, hs]
    cases hr : c.negotiator.RequestQuotes none req with
    | error e => simp [AgentNegotiator.RequestQuotes] at hr
    | ok quotes => simp only [select_of_request _ _ _ _ hr]
  unfold executeBody
  simp only [hv]
  split
  · rename_i cache hc
    have hc2 : c.cache = some cache := by
      split at hc
      · exact hc
      · cases hc
    rw [hmiss cache hc2]
    exact hafter _
  · exact hafter _

/-! ## C6: the deadline elapses during quote collection -/

/-- C6, the code at the failing input: the sample transfer passes validation and
misses the (empty) cache; the context deadline has elapsed when `RequestQuotes`
selects.  `ExecuteTransaction` returns an error whose code is AGENT_UNAVAILABLE,
with the deadline error only as its cause; the code is not TIMEOUT.  When the
same deadline fires at the `select` of step 6 instead, the code is TIMEOUT. -/
theorem quotes_deadline_reports_agent_unavailable :
    ValidateTransactionRequest (sampleRequest "ref_pay_salary_001") = none ∧
    quotesDeadlineEnv.quotesCtxDone = some CtxErr.DeadlineExceeded ∧
    (sampleClient.ExecuteTransaction quotesDeadlineEnv
        (sampleRequest "ref_pay_salary_001")).result
      = Except.error
          { Code := "AGENT_UNAVAILABLE", Message := "failed to get agent quotes",
            Cause := some "context deadline exceeded" } ∧
    (∀ err, (sampleClient.ExecuteTransaction quotesDeadlineEnv
        (sampleRequest "ref_pay_salary_001")).result = Except.error err →
      err.Code ≠ ErrTimeout) ∧
    (sampleClient.ExecuteTransaction settleDeadlineEnv
        (sampleRequest "ref_pay_salary_001")).result
      = Except.error
          { Code := "TIMEOUT", Message := "transaction timeout",
            Cause := some "context deadline exceeded" } := by
  have h : (sampleClient.ExecuteTransaction quotesDeadlineEnv
        (sampleRequest "ref_pay_salary_001")).result
      = Except.error
          { Code := "AGENT_UNAVAILABLE", Message := "failed to get agent quotes",
            Cause := some "context deadline exceeded" } := by
    rw [exec_result]
    exact body_quotes_ctx_done sampleClient quotesDeadlineEnv
      (sampleRequest "ref_pay_salary_001") CtxErr.DeadlineExceeded (by decide)
      (by intro cache hc; cases hc; rfl) rfl
  refine ⟨by decide, rfl, h, ?_, ?_⟩
  · intro err herr
    rw [h] at herr
    cases herr
    decide
  · rw [exec_result]
    exact body_settle_ctx_done sampleClient settleDeadlineEnv
      (sampleRequest "ref_pay_salary_001") CtxErr.DeadlineExceeded (by decide)
      (by intro cache hc; cases hc; rfl) rfl rfl

/-! ## C7: a failed call -/

/-- C7: for every client, every context and clock, and every request, if
`ExecuteTransaction` returns an error (at whatever stage), then the cache after
the call is the cache before it and no step of the call is a cache write; and
when metrics are enabled, `RecordTransaction` is invoked exactly once in that
call, with success = false (the global metrics are the old ones updated by that
one record). -/
theorem error_keeps_cache_records_failure (c : EasyCashClient) (env : CallEnv)
    (req : TransactionRequest) (err : SDKError)
    (h : (c.ExecuteTransaction env req).result = Except.error err) :
    (c.ExecuteTransaction env req).client.cache = c.cache ∧
    (∀ k, Event.cacheSet k ∉ (c.ExecuteTransaction env req).trace) ∧
    (c.config.EnableMetrics = true →
      recordCalls (c.ExecuteTransaction env req).trace = [false] ∧
      (c.ExecuteTransaction env req).client.metrics
        = c.metrics.RecordTransaction false 0 env.elapsed) := by
  rw [exec_result] at h
  obtain ⟨h1, h2, h3, h4⟩ := body_error c env req err h
  refine ⟨by rw [exec_cache]; exact h3, ?_, ?_⟩
  · intro k
    rw [exec_trace]
    intro hk
    rcases List.mem_append.mp hk with hk | hk
    · exact h4 k hk
    · split at hk <;> simp at hk
  · intro hm
    constructor
    · rw [exec_trace, recordCalls_append, body_recordCalls, hm]
      simp [recordCalls, h1]
    · unfold EasyCashClient.ExecuteTransaction
      simp only [hm, if_true, h1, h2]

/-- Two failed calls on the sample client: one that fails at quote collection
(deadline), one that fails validation. -/
theorem error_keeps_cache_records_failure_witness :
    ((sampleClient.ExecuteTransaction quotesDeadlineEnv
          (sampleRequest "ref_pay_salary_001")).client.cache = sampleClient.cache ∧
      (∀ k, Event.cacheSet k ∉ (sampleClient.ExecuteTransaction quotesDeadlineEnv
          (sampleRequest "ref_pay_salary_001")).trace) ∧
      (sampleClient.config.EnableMetrics = true →
        recordCalls (sampleClient.ExecuteTransaction quotesDeadlineEnv
          (sampleRequest "ref_pay_salary_001")).trace = [false] ∧
        (sampleClient.ExecuteTransaction quotesDeadlineEnv
          (sampleRequest "ref_pay_salary_001")).client.metrics
          = sampleClient.metrics.RecordTransaction false 0 quotesDeadlineEnv.elapsed)) ∧
    ((sampleClient.ExecuteTransaction (calmEnv 1000 1050 "7d9f1c3a")
          brokenRequest).client.cache = sampleClient.cache ∧
      (∀ k, Event.cacheSet k ∉ (sampleClient.ExecuteTransaction (calmEnv 1000 1050 "7d9f1c3a")
          brokenRequest).trace) ∧
      (sampleClient.config.EnableMetrics = true →
        recordCalls (sampleClient.ExecuteTransaction (calmEnv 1000 1050 "7d9f1c3a")
          brokenRequest).trace = [false] ∧
        (sampleClient.ExecuteTransaction (calmEnv 1000 1050 "7d9f1c3a")
          brokenRequest).client.metrics
          = sampleClient.metrics.RecordTransaction false 0
              (calmEnv 1000 1050 "7d9f1c3a").elapsed)) :=
  ⟨error_keeps_cache_records_failure sampleClient quotesDeadlineEnv
      (sampleRequest "ref_pay_salary_001")
      (Wrap ErrAgentUnavailable "failed to get agent quotes"
        (some CtxErr.DeadlineExceeded.Error))
      (by
        rw [exec_result]
        exact body_quotes_ctx_done sampleClient quotesDeadlineEnv
          (sampleRequest "ref_pay_salary_001") CtxErr.DeadlineExceeded (by decide)
          (by intro cache hc; cases hc; rfl) rfl),
   error_keeps_cache_records_failure sampleClient (calmEnv 1000 1050 "7d9f1c3a")
      brokenRequest
      (Wrap ErrInvalidRequest "validation failed"
        (some "amount validation failed: amount must be positive"))
      (by
        rw [exec_result, body_invalid sampleClient (calmEnv 1000 1050 "7d9f1c3a")
          brokenRequest "amount validation failed: amount must be positive" (by decide)])⟩

/-! ## C8: an invalid request -/

/-- Every request whose amount is `0` fails validation, on the amount rule. -/
theorem validate_zero_amount (req : TransactionRequest) (h : req.Amount = "0") :
    ValidateTransactionRequest req
      = some "amount validation failed: amount must be positive" := by
  have ha : ValidateAmount "0" = some "amount must be positive" := by decide
  unfold ValidateTransactionRequest
  rw [h, ha]
  rfl

/-- C8: for every request that fails `ValidateTransactionRequest`,
`ExecuteTransaction` returns an error with code INVALID_REQUEST (wrapping the
validation error), leaves the cache as it was, and takes none of the steps cache
lookup, proof generation, RequestQuotes, SelectBestRoute, settlement or cache
write: the only step of the call is the deferred metrics record, when metrics
are enabled. -/
theorem invalid_request_stops_at_validation (c : EasyCashClient) (env : CallEnv)
    (req : TransactionRequest) (verr : String)
    (h : ValidateTransactionRequest req = some verr) :
    (c.ExecuteTransaction env req).result
      = Except.error
          { Code := "INVALID_REQUEST", Message := "validation failed", Cause := some verr } ∧
    (c.ExecuteTransaction env req).client.cache = c.cache ∧
    (c.ExecuteTransaction env req).trace
      = (if c.config.EnableMetrics then [Event.recordTransaction false 0 env.elapsed]
         else []) ∧
    (∀ k, Event.cacheGet k ∉ (c.ExecuteTransaction env req).trace) ∧
    Event.generateProof ∉ (c.ExecuteTransaction env req).trace ∧
    Event.requestQuotes ∉ (c.ExecuteTransaction env req).trace ∧
    Event.selectBestRoute ∉ (c.ExecuteTransaction env req).trace ∧
    Event.settle ∉ (c.ExecuteTransaction env req).trace ∧
    (∀ k, Event.cacheSet k ∉ (c.ExecuteTransaction env req).trace) := by
  have hb := body_invalid c env req verr h
  have ht : (c.ExecuteTransaction env req).trace
      = (if c.config.EnableMetrics then [Event.recordTransaction false 0 env.elapsed]
         else []) := by
    rw [exec_trace, hb]
    rfl
  have hno : ∀ ev, (∀ s f l, ev ≠ Event.recordTransaction s f l) →
      ev ∉ (c.ExecuteTransaction env req).trace := by
    intro ev hev hmem
    rw [ht] at hmem
    split at hmem
    · simp only [List.mem_singleton] at hmem
      exact hev _ _ _ hmem
    · simp at hmem
  exact ⟨by rw [exec_result, hb]; rfl, by rw [exec_cache, hb], ht,
    fun k => hno _ (by simp), hno _ (by simp), hno _ (by simp), hno _ (by simp),
    hno _ (by simp), fun k => hno _ (by simp)⟩

/-- The sample transfer with amount `0` stops at validation. -/
theorem invalid_request_stops_at_validation_witness :
    (sampleClient.ExecuteTransaction (calmEnv 1000 1050 "7d9f1c3a") zeroAmountRequest).result
      = Except.error
          { Code := "INVALID_REQUEST", Message := "validation failed",
            Cause := some "amount validation failed: amount must be positive" } ∧
    (sampleClient.ExecuteTransaction (calmEnv 1000 1050 "7d9f1c3a")
        zeroAmountRequest).client.cache = sampleClient.cache ∧
    (sampleClient.ExecuteTransaction (calmEnv 1000 1050 "7d9f1c3a") zeroAmountRequest).trace
      = (if sampleClient.config.EnableMetrics then
          [Event.recordTransaction false 0 (calmEnv 1000 1050 "7d9f1c3a").elapsed]
         else []) ∧
    (∀ k, Event.cacheGet k ∉ (sampleClient.ExecuteTransaction (calmEnv 1000 1050 "7d9f1c3a")
        zeroAmountRequest).trace) ∧
    Event.generateProof ∉ (sampleClient.ExecuteTransaction (calmEnv 1000 1050 "7d9f1c3a")
        zeroAmountRequest).trace ∧
    Event.requestQuotes ∉ (sampleClient.ExecuteTransaction (calmEnv 1000 1050 "7d9f1c3a")
        zeroAmountRequest).trace ∧
    Event.selectBestRoute ∉ (sampleClient.ExecuteTransaction (calmEnv 1000 1050 "7d9f1c3a")
        zeroAmountRequest).trace ∧
    Event.settle ∉ (sampleClient.ExecuteTransaction (calmEnv 1000 1050 "7d9f1c3a")
        zeroAmountRequest).trace ∧
    (∀ k, Event.cacheSet k ∉ (sampleClient.ExecuteTransaction (calmEnv 1000 1050 "7d9f1c3a")
        zeroAmountRequest).trace) :=
  invalid_request_stops_at_validation sampleClient (calmEnv 1000 1050 "7d9f1c3a")
    zeroAmountRequest "amount validation failed: amount must be positive"
    (validate_zero_amount zeroAmountRequest rfl)

/-! ## C9 and C10: the rules of `ValidateTransactionRequest` -/

/-- `ValidateChain` accepts exactly ethereum, base and solana. -/
theorem validateChain_none_iff (chain : ChainID) :
    ValidateChain chain = none ↔
      chain = "ethereum" ∨ chain = "base" ∨ chain = "solana" := by
  unfold ValidateChain validChainsAt validChains ChainEthereum ChainBase ChainSolana
  by_cases h1 : chain = "ethereum"
  · subst h1; simp [List.lookup]
  · by_cases h2 : chain = "base"
    · subst h2; simp [List.lookup]
    · by_cases h3 : chain = "solana"
      · subst h3; simp [List.lookup]
      · have e1 : (chain == "ethereum") = false := by simpa using h1
        have e2 : (chain == "base") = false := by simpa using h2
        have e3 : (chain == "solana") = false := by simpa using h3
        simp [List.lookup, e1, e2, e3, h1, h2, h3]

/-- The result of `ValidateTransactionRequest`, rule by rule. -/
theorem validate_unfold (req : TransactionRequest) :
    ValidateTransactionRequest req =
      match ValidateAmount req.Amount with
      | some err => some ("amount validation failed: " ++ err)
      | none =>
        match ValidateChain req.SourceChain with
        | some err => some ("source chain validation failed: " ++ err)
        | none =>
          match (if req.TargetChain ≠ "" then ValidateChain req.TargetChain else none) with
          | some err => some ("target chain validation failed: " ++ err)
          | none =>
            match (if req.Recipient ≠ "" then ValidateAddress req.Recipient else none) with
            | some err => some ("recipient validation failed: " ++ err)
            | none => none := rfl

/-- C9: for every request, `ValidateTransactionRequest` returns no error if and
only if the amount passes `ValidateAmount`, the source chain is ethereum, base or
solana, the target chain is empty or one of these three, and the recipient is
empty or passes `ValidateAddress`; and two requests that agree on Amount,
SourceChain, TargetChain and Recipient get the same result, whatever their
ReferenceID, Type, Asset and IsShielded. -/
theorem validate_ok_iff_four_rules (req : TransactionRequest) :
    (ValidateTransactionRequest req = none ↔
      ValidateAmount req.Amount = none ∧
      (req.SourceChain = "ethereum" ∨ req.SourceChain = "base" ∨ req.SourceChain = "solana") ∧
      (req.TargetChain = "" ∨
        req.TargetChain = "ethereum" ∨ req.TargetChain = "base" ∨ req.TargetChain = "solana") ∧
      (req.Recipient = "" ∨ ValidateAddress req.Recipient = none)) ∧
    (∀ other : TransactionRequest,
      other.Amount = req.Amount → other.SourceChain = req.SourceChain →
      other.TargetChain = req.TargetChain → other.Recipient = req.Recipient →
      ValidateTransactionRequest other = ValidateTransactionRequest req) := by
  constructor
  · rw [validate_unfold, ← validateChain_none_iff, ← validateChain_none_iff]
    cases ha : ValidateAmount req.Amount with
    | some e => simp
    | none =>
      cases hs : ValidateChain req.SourceChain with
      | some e => simp
      | none =>
        by_cases ht : req.TargetChain = ""
        · by_cases hr : req.Recipient = ""
          · simp [ht, hr]
          · cases hra : ValidateAddress req.Recipient with
            | some e => simp [ht, hr, hra]
            | none => simp [ht, hr, hra]
        · cases hta : ValidateChain req.TargetChain with
          | some e => simp [ht, hta]
          | none =>
            by_cases hr : req.Recipient = ""
            · simp [ht, hta, hr]
            · cases hra : ValidateAddress req.Recipient with
              | some e => simp [ht, hr, hta, hra]
              | none => simp [ht, hr, hta, hra]
  · intro other h1 h2 h3 h4
    rw [validate_unfold, validate_unfold, h1, h2, h3, h4]

/-- The sample transfer passes; changing Type, Asset, IsShielded and ReferenceID
does not change the result. -/
theorem validate_ok_iff_four_rules_witness :
    ValidateTransactionRequest (sampleRequest "ref_pay_salary_001") = none ∧
    ValidateTransactionRequest
        { sampleRequest "ref_other" with Typ := IntentSwap, Asset := "DAI", IsShielded := false }
      = ValidateTransactionRequest (sampleRequest "ref_pay_salary_001") :=
  ⟨(validate_ok_iff_four_rules (sampleRequest "ref_pay_salary_001")).1.2
      ⟨by decide, Or.inr (Or.inl rfl), Or.inl rfl, Or.inl rfl⟩,
   (validate_ok_iff_four_rules (sampleRequest "ref_pay_salary_001")).2
      { sampleRequest "ref_other" with Typ := IntentSwap, Asset := "DAI", IsShielded := false }
      rfl rfl rfl rfl⟩

/-- C10: the error of `ValidateTransactionRequest` is the error of the first rule
that fails, in the order amount, source chain, target chain, recipient, behind
that rule's message: a failing amount is reported whatever the other fields
are; a failing source chain is reported when the amount passes, whatever the
target chain and the recipient are; a failing target chain is reported when
amount and source chain pass, whatever the recipient is; a failing recipient is
reported only when the three rules before it pass. -/
theorem validate_first_failure_wins (req : TransactionRequest) :
    (∀ err, ValidateAmount req.Amount = some err →
      ValidateTransactionRequest req = some ("amount validation failed: " ++ err)) ∧
    (∀ err, ValidateAmount req.Amount = none →
      ValidateChain req.SourceChain = some err →
      ValidateTransactionRequest req = some ("source chain validation failed: " ++ err)) ∧
    (∀ err, ValidateAmount req.Amount = none →
      ValidateChain req.SourceChain = none →
      req.TargetChain ≠ "" → ValidateChain req.TargetChain = some err →
      ValidateTransactionRequest req = some ("target chain validation failed: " ++ err)) ∧
    (∀ err, ValidateAmount req.Amount = none →
      ValidateChain req.SourceChain = none →
      (req.TargetChain = "" ∨ ValidateChain req.TargetChain = none) →
      req.Recipient ≠ "" → ValidateAddress req.Recipient = some err →
      ValidateTransactionRequest req = some ("recipient validation failed: " ++ err)) := by
  refine ⟨?_, ?_, ?_, ?_⟩
  · intro err ha
    rw [validate_unfold, ha]
  · intro err ha hs
    rw [validate_unfold, ha, hs]
  · intro err ha hs ht hta
    rw [validate_unfold, ha, hs]
    simp [ht, hta]
  · intro err ha hs ht hr hra
    rw [validate_unfold, ha, hs]
    rcases ht with ht | ht
    · simp [ht, hr, hra]
    · by_cases ht2 : req.TargetChain = ""
      · simp [ht2, hr, hra]
      · simp [ht2, ht, hr, hra]

/-- A request that breaks all four rules reports the amount; repairing the rules
one by one reports the next one each time. -/
theorem validate_first_failure_wins_witness :
    ValidateTransactionRequest brokenRequest
      = some ("amount validation failed: " ++ "amount must be positive") ∧
    ValidateTransactionRequest { brokenRequest with Amount := "12.5" }
      = some ("source chain validation failed: " ++ "unsupported chain: polygon") ∧
    ValidateTransactionRequest
        { brokenRequest with Amount := "12.5", SourceChain := ChainSolana }
      = some ("target chain validation failed: " ++ "unsupported chain: bitcoin") ∧
    ValidateTransactionRequest
        { brokenRequest with Amount := "12.5", SourceChain := ChainSolana, TargetChain := "" }
      = some ("recipient validation failed: " ++ "invalid address format: 0xZZZZ") :=
  ⟨(validate_first_failure_wins brokenRequest).1 _ (by decide),
   (validate_first_failure_wins { brokenRequest with Amount := "12.5" }).2.1 _
      (by decide) (by decide),
   (validate_first_failure_wins
      { brokenRequest with Amount := "12.5", SourceChain := ChainSolana }).2.2.1 _
      (by decide) (by decide) (by decide) (by decide),
   (validate_first_failure_wins
      { brokenRequest with Amount := "12.5", SourceChain := ChainSolana,
                           TargetChain := "" }).2.2.2 _
      (by decide) (by decide) (Or.inl rfl) (by decide) (by decide)⟩

/-! ## C14: write then read -/

/-- C14: for every cache state, key `k` and value `v`, after `Set(k, v)` at time
`t0` a `Get(k)` at any time `t` with `t0 ≤ t < t0 + TTL` is a hit with exactly
`v`; the entry under `k` is the new one with expiration `t0 + TTL`, whatever
entry `k` held before. -/
theorem set_then_get_returns_value (c : Cache) (k : String) (v : Any) (t0 t : Int)
    (_h0 : t0 ≤ t) (h1 : t < t0 + c.ttl) :
    (c.Set t0 k v).Get t k = some v ∧
    (c.Set t0 k v).items k = some { Value := v, Expiration := t0 + c.ttl } := by
  have hs : (c.Set t0 k v).items k = some { Value := v, Expiration := t0 + c.ttl } := by
    simp [Cache.Set]
  refine ⟨?_, hs⟩
  unfold Cache.Get
  rw [hs]
  simp only [not_lt.mpr (le_of_lt h1), if_false]

/-- A value written over an older entry (another response, already expired) is
read back as written, 59 s after the write. -/
theorem set_then_get_returns_value_witness :
    (((NewCache (60 * Second)).Set 5 "transfer-5000.00-USDC" (Any.other "stale")).Set 100
        "transfer-5000.00-USDC" (Any.response sampleResponse)).Get (100 + 59 * Second)
        "transfer-5000.00-USDC" = some (Any.response sampleResponse) ∧
    (((NewCache (60 * Second)).Set 5 "transfer-5000.00-USDC" (Any.other "stale")).Set 100
        "transfer-5000.00-USDC" (Any.response sampleResponse)).items
        "transfer-5000.00-USDC"
      = some { Value := Any.response sampleResponse,
               Expiration := 100 + ((NewCache (60 * Second)).Set 5 "transfer-5000.00-USDC"
                 (Any.other "stale")).ttl } :=
  set_then_get_returns_value
    ((NewCache (60 * Second)).Set 5 "transfer-5000.00-USDC" (Any.other "stale"))
    "transfer-5000.00-USDC" (Any.response sampleResponse) 100 (100 + 59 * Second)
    (by decide) (by decide)

/-! ## C15: the sweep -/

/-- C15: one pass of the sweep at time `now` removes exactly the entries whose
expiration has passed (`now` is after it) and keeps every other entry as it is,
and for every key a read at time `now`, and at any later time, gives the same
result (hit with the same value, or miss) after the sweep as before it. -/
theorem sweep_removes_expired_keeps_reads (c : Cache) (now : Int) (k : String) :
    (∀ e, c.items k = some e → e.Expiration < now → (c.cleanupPass now).items k = none) ∧
    (∀ e, c.items k = some e → ¬ e.Expiration < now →
      (c.cleanupPass now).items k = some e) ∧
    (c.items k = none → (c.cleanupPass now).items k = none) ∧
    (c.cleanupPass now).ttl = c.ttl ∧
    (c.cleanupPass now).Get now k = c.Get now k ∧
    (∀ t, now ≤ t → (c.cleanupPass now).Get t k = c.Get t k) := by
  have hget : ∀ t, now ≤ t → (c.cleanupPass now).Get t k = c.Get t k := by
    intro t ht
    unfold Cache.Get Cache.cleanupPass
    cases h : c.items k with
    | none => simp [h]
    | some e =>
      by_cases hx : e.Expiration < now
      · simp [h, hx, lt_of_lt_of_le hx ht]
      · simp [h, hx]
  refine ⟨?_, ?_, ?_, rfl, hget now (le_refl _), hget⟩
  · intro e he hx
    simp [Cache.cleanupPass, he, hx]
  · intro e he hx
    simp [Cache.cleanupPass, he, hx]
  · intro he
    simp [Cache.cleanupPass, he]

/-- A sweep at 100 + 61 s drops an entry that expired at 100 + 60 s and keeps one
that expires at 100 + 90 s; reads of both keys are unchanged. -/
theorem sweep_removes_expired_keeps_reads_witness :
    ((((NewCache (60 * Second)).Set 100 "old" (Any.other "a")).Set (100 + 30 * Second) "new"
        (Any.other "b")).cleanupPass (100 + 61 * Second)).items "old" = none ∧
    ((((NewCache (60 * Second)).Set 100 "old" (Any.other "a")).Set (100 + 30 * Second) "new"
        (Any.other "b")).cleanupPass (100 + 61 * Second)).items "new"
      = some { Value := Any.other "b", Expiration := 100 + 30 * Second + 60 * Second } ∧
    ((((NewCache (60 * Second)).Set 100 "old" (Any.other "a")).Set (100 + 30 * Second) "new"
        (Any.other "b")).cleanupPass (100 + 61 * Second)).Get (100 + 61 * Second) "new"
      = (((NewCache (60 * Second)).Set 100 "old" (Any.other "a")).Set (100 + 30 * Second)
        "new" (Any.other "b")).Get (100 + 61 * Second) "new" :=
  ⟨(sweep_removes_expired_keeps_reads
      (((NewCache (60 * Second)).Set 100 "old" (Any.other "a")).Set (100 + 30 * Second) "new"
        (Any.other "b")) (100 + 61 * Second) "old").1
      { Value := Any.other "a", Expiration := 100 + 60 * Second }
      (by simp [Cache.Set, NewCache]) (by decide),
   (sweep_removes_expired_keeps_reads
      (((NewCache (60 * Second)).Set 100 "old" (Any.other "a")).Set (100 + 30 * Second) "new"
        (Any.other "b")) (100 + 61 * Second) "new").2.1
      { Value := Any.other "b", Expiration := 100 + 30 * Second + 60 * Second }
      (by simp [Cache.Set, NewCache]) (by decide),
   (sweep_removes_expired_keeps_reads
      (((NewCache (60 * Second)).Set 100 "old" (Any.other "a")).Set (100 + 30 * Second) "new"
        (Any.other "b")) (100 + 61 * Second) "new").2.2.2.2.1⟩

/-! ## Metrics -/

/-- An int64 result inside the int64 range is not changed by the wrap-around. -/
theorem wrapInt64_of_range (x : Int) (hlo : -2 ^ 63 ≤ x) (hhi : x < 2 ^ 63) :
    wrapInt64 x = x := by
  unfold wrapInt64
  have h63 : (2 : Int) ^ 63 = 9223372036854775808 := by norm_num
  have h64 : (2 : Int) ^ 64 = 18446744073709551616 := by norm_num
  rw [h63] at hlo hhi ⊢
  rw [h64]
  omega

/-! ## C16: the success rate with no transactions -/

/-- C16, the code at the failing input: in the zero state, and after `Reset` of a
state with one recorded success, `TotalTransactions` is 0 and `GetStats` computes
`float64(0) / float64(0)`; the reported success_rate is NaN, not the number 0.
With one recorded success the rate is the quotient 1 / 1. -/
theorem success_rate_of_zero_total_is_nan :
    zeroMetrics.TotalTransactions = 0 ∧
    zeroMetrics.GetStats.success_rate = Float64.nan ∧
    ((applyOps [sampleRecord] zeroMetrics).Reset).TotalTransactions = 0 ∧
    ((applyOps [sampleRecord] zeroMetrics).Reset).GetStats.success_rate = Float64.nan ∧
    Float64.nan ≠ Float64.finite 0 ∧
    (applyOps [sampleRecord] zeroMetrics).GetStats.success_rate = Float64.finite (1 / 1) := by
  refine ⟨rfl, rfl, rfl, rfl, by simp, ?_⟩
  have h1 : wrapInt64 (0 + 1) = 1 := by
    rw [wrapInt64_of_range] <;> norm_num
  simp only [applyOps, List.foldl, sampleRecord, MetricsOp.apply, Metrics.GetStats,
    Metrics.RecordTransaction, zeroMetrics, if_true, h1, float64Quotient]
  norm_num

/-! ## C17: the rolling average latency -/

/-- C17: for every metrics state with average latency `A` and every recorded
latency `L` with `A + L` inside the int64 range, after
`RecordTransaction(success, fee, L)` the average latency is `(A + L) / 2` with
division truncating toward zero, whether `success` is true or false; when `A` is
zero (the zero state, or after `Reset`) the result is `L / 2`, not `L`. -/
theorem average_latency_is_half_sum (m : Metrics) (success : Bool) (fee : ℚ) (L : Int)
    (hlo : -2 ^ 63 ≤ m.AverageLatency + L) (hhi : m.AverageLatency + L < 2 ^ 63) :
    (m.RecordTransaction success fee L).AverageLatency = Int.tdiv (m.AverageLatency + L) 2 ∧
    (m.AverageLatency = 0 →
      (m.RecordTransaction success fee L).AverageLatency = Int.tdiv L 2) ∧
    (m.Reset).AverageLatency = 0 := by
  have h : (m.RecordTransaction success fee L).AverageLatency
      = Int.tdiv (m.AverageLatency + L) 2 := by
    simp only [Metrics.RecordTransaction]
    rw [wrapInt64_of_range _ hlo hhi]
  refine ⟨h, ?_, rfl⟩
  intro h0
  rw [h, h0, zero_add]

/-- The first sample of 150 ms after the zero state leaves an average of 75 ms;
a failed call with a latency of -3 ns on an average of 0 leaves -1 ns. -/
theorem average_latency_is_half_sum_witness :
    ((zeroMetrics.RecordTransaction true (5 / 100) 150000000).AverageLatency
        = Int.tdiv (zeroMetrics.AverageLatency + 150000000) 2 ∧
      (zeroMetrics.AverageLatency = 0 →
        (zeroMetrics.RecordTransaction true (5 / 100) 150000000).AverageLatency
          = Int.tdiv 150000000 2) ∧
      (zeroMetrics.Reset).AverageLatency = 0) ∧
    Int.tdiv 150000000 2 = 75000000 ∧
    ((zeroMetrics.RecordTransaction false 0 (-3)).AverageLatency
        = Int.tdiv (zeroMetrics.AverageLatency + (-3)) 2 ∧
      (zeroMetrics.AverageLatency = 0 →
        (zeroMetrics.RecordTransaction false 0 (-3)).AverageLatency = Int.tdiv (-3) 2) ∧
      (zeroMetrics.Reset).AverageLatency = 0) ∧
    Int.tdiv (-3) 2 = -1 :=
  ⟨average_latency_is_half_sum zeroMetrics true (5 / 100) 150000000
      (by decide) (by decide),
   by decide,
   average_latency_is_half_sum zeroMetrics false 0 (-3) (by decide) (by decide),
   by decide⟩

/-! ## C18: the highest security score -/

/-- C18: for every non-empty quote list whose security scores lie in [0, 1] and
every preference, `SelectBestRoute` returns a quote of the list whose
SecurityScore is at least that of every quote in the list, namely the first such
quote in input order (every quote before it scores strictly lower); and the
result is the same for every other preference. -/
theorem select_returns_first_maximum (n : AgentNegotiator) (quotes : List RouteQuote)
    (preference : String) (hne : quotes ≠ [])
    (_hrange : ∀ x ∈ quotes, 0 ≤ x.SecurityScore ∧ x.SecurityScore ≤ 1) :
    ∃ before q after, quotes = before ++ q :: after ∧
      n.SelectBestRoute quotes preference = Except.ok q ∧
      (∀ x ∈ quotes, x.SecurityScore ≤ q.SecurityScore) ∧
      (∀ x ∈ before, x.SecurityScore < q.SecurityScore) ∧
      (∀ other : String, n.SelectBestRoute quotes other = Except.ok q) := by
  cases quotes with
  | nil => exact absurd rfl hne
  | cons q0 rest =>
    obtain ⟨before, q, after, h1, h2, h3, h4⟩ := select_decomposition n q0 rest preference
    refine ⟨before, q, after, h1, h2, ?_, h3, ?_⟩
    · intro x hx
      rw [h1] at hx
      rcases List.mem_append.mp hx with hx | hx
      · exact le_of_lt (h3 x hx)
      · rcases List.mem_cons.mp hx with rfl | hx
        · exact le_refl _
        · exact h4 x hx
    · intro other
      rw [← h2]
      rfl

/-- On the list agent-002 (0.85), agent-b (0.9), agent-a (0.9) the result is the
first of the two quotes with score 0.9. -/
theorem select_returns_first_maximum_witness :
    ∃ before q after,
      [quote002 brokenRequest, tiedQuote "agent-b", tiedQuote "agent-a"]
        = before ++ q :: after ∧
      (NewNegotiator (30 * Second)).SelectBestRoute
        [quote002 brokenRequest, tiedQuote "agent-b", tiedQuote "agent-a"] "fastest"
        = Except.ok q ∧
      (∀ x ∈ [quote002 brokenRequest, tiedQuote "agent-b", tiedQuote "agent-a"],
        x.SecurityScore ≤ q.SecurityScore) ∧
      (∀ x ∈ before, x.SecurityScore < q.SecurityScore) ∧
      (∀ other : String, (NewNegotiator (30 * Second)).SelectBestRoute
        [quote002 brokenRequest, tiedQuote "agent-b", tiedQuote "agent-a"] other
        = Except.ok q) :=
  select_returns_first_maximum (NewNegotiator (30 * Second))
    [quote002 brokenRequest, tiedQuote "agent-b", tiedQuote "agent-a"] "fastest"
    (by simp)
    (by
      intro x hx
      simp only [List.mem_cons, List.mem_singleton, List.not_mem_nil, or_false] at hx
      rcases hx with rfl | rfl | rfl <;> simp only [quote002, tiedQuote] <;> norm_num)

/-! ## C19: the counters -/

/-- The counter invariant up to a bound on the total: the total is the sum of
successes and failures, none is negative, and the total is at most `bound`. -/
theorem record_keeps_counters (m : Metrics) (success : Bool) (fee : ℚ) (latency : Int)
    (hsum : m.TotalTransactions = m.SuccessfulTransactions + m.FailedTransactions)
    (hs : 0 ≤ m.SuccessfulTransactions) (hf : 0 ≤ m.FailedTransactions)
    (hbound : m.TotalTransactions + 1 < 2 ^ 63) :
    (m.RecordTransaction success fee latency).TotalTransactions = m.TotalTransactions + 1 ∧
    (success = true →
      (m.RecordTransaction success fee latency).SuccessfulTransactions
        = m.SuccessfulTransactions + 1 ∧
      (m.RecordTransaction success fee latency).FailedTransactions = m.FailedTransactions ∧
      (m.RecordTransaction success fee latency).TotalFeePaid = m.TotalFeePaid + fee) ∧
    (success = false →
      (m.RecordTransaction success fee latency).SuccessfulTransactions
        = m.SuccessfulTransactions ∧
      (m.RecordTransaction success fee latency).FailedTransactions
        = m.FailedTransactions + 1 ∧
      (m.RecordTransaction success fee latency).TotalFeePaid = m.TotalFeePaid) := by
  have h63 : (2 : Int) ^ 63 = 9223372036854775808 := by norm_num
  rw [h63] at hbound
  have ht : wrapInt64 (m.TotalTransactions + 1) = m.TotalTransactions + 1 := by
    apply wrapInt64_of_range <;> rw [h63] <;> omega
  have hs1 : wrapInt64 (m.SuccessfulTransactions + 1) = m.SuccessfulTransactions + 1 := by
    apply wrapInt64_of_range <;> rw [h63] <;> omega
  have hf1 : wrapInt64 (m.FailedTransactions + 1) = m.FailedTransactions + 1 := by
    apply wrapInt64_of_range <;> rw [h63] <;> omega
  refine ⟨ht, ?_, ?_⟩
  · intro h
    subst h
    simp [Metrics.RecordTransaction, hs1]
  · intro h
    subst h
    simp [Metrics.RecordTransaction, hf1]

theorem applyOps_append (ops : List MetricsOp) (op : MetricsOp) (m : Metrics) :
    applyOps (ops ++ [op]) m = op.apply (applyOps ops m) := by
  simp [applyOps, List.foldl_append]

/-- After fewer than 2^63 calls the counters are consistent and the total is at
most the number of calls. -/
theorem applyOps_counters (ops : List MetricsOp) (h : (ops.length : Int) < 2 ^ 63) :
    (applyOps ops zeroMetrics).TotalTransactions
      = (applyOps ops zeroMetrics).SuccessfulTransactions
        + (applyOps ops zeroMetrics).FailedTransactions ∧
    0 ≤ (applyOps ops zeroMetrics).SuccessfulTransactions ∧
    0 ≤ (applyOps ops zeroMetrics).FailedTransactions ∧
    (applyOps ops zeroMetrics).TotalTransactions ≤ ops.length := by
  induction ops using List.reverseRecOn with
  | nil => simp [applyOps, zeroMetrics]
  | append_singleton init op ih =>
    have hlen : ((init ++ [op]).length : Int) = (init.length : Int) + 1 := by
      simp
    rw [hlen] at h ⊢
    obtain ⟨h1, h2, h3, h4⟩ := ih (by omega)
    rw [applyOps_append]
    cases op with
    | reset =>
      simp only [MetricsOp.apply, Metrics.Reset]
      refine ⟨by norm_num, le_refl _, le_refl _, by omega⟩
    | record success fee latency =>
      simp only [MetricsOp.apply]
      obtain ⟨r1, r2, r3⟩ := record_keeps_counters (applyOps init zeroMetrics) success fee
        latency h1 h2 h3 (by omega)
      cases success with
      | true =>
        obtain ⟨a, b, _⟩ := r2 rfl
        rw [r1, a, b]
        refine ⟨by omega, by omega, h3, by omega⟩
      | false =>
        obtain ⟨a, b, _⟩ := r3 rfl
        rw [r1, a, b]
        refine ⟨by omega, h2, by omega, by omega⟩

/-- After `n` successful records, `n` below 2^63, the total and the success
counter are `n`. -/
theorem replicate_record_total (n : Nat) (h : (n : Int) < 2 ^ 63) :
    (applyOps (List.replicate n sampleRecord) zeroMetrics).TotalTransactions = n ∧
    (applyOps (List.replicate n sampleRecord) zeroMetrics).SuccessfulTransactions = n ∧
    (applyOps (List.replicate n sampleRecord) zeroMetrics).FailedTransactions = 0 := by
  induction n with
  | zero => simp [applyOps, zeroMetrics]
  | succ k ih =>
    have hk : ((k + 1 : Nat) : Int) = (k : Int) + 1 := by push_cast; rfl
    rw [hk] at h ⊢
    obtain ⟨h1, h2, h3⟩ := ih (by omega)
    rw [List.replicate_succ', applyOps_append]
    simp only [sampleRecord, MetricsOp.apply]
    obtain ⟨r1, r2, _⟩ := record_keeps_counters
      (applyOps (List.replicate k sampleRecord) zeroMetrics) true (5 / 100) 150000000
      (by rw [h1, h2, h3]; omega) (by rw [h2]; omega) (by rw [h3]) (by rw [h1]; omega)
    obtain ⟨a, b, _⟩ := r2 rfl
    simp only [sampleRecord] at r1 a b h1 h2 h3
    rw [r1, a, b, h1, h2, h3]
    exact ⟨rfl, rfl, rfl⟩

/-- C19, counterexample: the state reached from the zero state by 2^63 - 1
successful `RecordTransaction` calls has `TotalTransactions` = 2^63 - 1, the
largest int64.  One more `RecordTransaction` call wraps the counter around to
-2^63: the total becomes negative and is not raised by one. -/
theorem total_wraps_at_max_int64 :
    (applyOps (List.replicate (2 ^ 63 - 1) sampleRecord) zeroMetrics).TotalTransactions
      = 2 ^ 63 - 1 ∧
    ((applyOps (List.replicate (2 ^ 63 - 1) sampleRecord) zeroMetrics).RecordTransaction true
        (5 / 100) 150000000).TotalTransactions = -2 ^ 63 ∧
    ((applyOps (List.replicate (2 ^ 63 - 1) sampleRecord) zeroMetrics).RecordTransaction true
        (5 / 100) 150000000).TotalTransactions < 0 ∧
    ((applyOps (List.replicate (2 ^ 63 - 1) sampleRecord) zeroMetrics).RecordTransaction true
        (5 / 100) 150000000).TotalTransactions
      ≠ (applyOps (List.replicate (2 ^ 63 - 1) sampleRecord) zeroMetrics).TotalTransactions
        + 1 := by
  have hcast : (((2 ^ 63 - 1 : Nat)) : Int) = 2 ^ 63 - 1 := by norm_num
  obtain ⟨h1, _, _⟩ := replicate_record_total (2 ^ 63 - 1) (by rw [hcast]; norm_num)
  rw [hcast] at h1
  generalize applyOps (List.replicate (2 ^ 63 - 1) sampleRecord) zeroMetrics = m at h1 ⊢
  have hw : (m.RecordTransaction true (5 / 100) 150000000).TotalTransactions = -2 ^ 63 := by
    simp only [Metrics.RecordTransaction, h1, wrapInt64]
    norm_num
  refine ⟨h1, hw, ?_, ?_⟩
  · rw [hw]; norm_num
  · rw [hw, h1]; norm_num

/-- C19, amended: in every metrics state reached from the zero state by a
sequence of fewer than 2^63 `RecordTransaction` and `Reset` calls,
TotalTransactions = SuccessfulTransactions + FailedTransactions and all three
counters are non-negative; and when the sequence stays below 2^63 calls with one
more call, that `RecordTransaction` call raises TotalTransactions by exactly one
and exactly one of the other two by one (Successful when success is true, Failed
otherwise), adding the fee to TotalFeePaid when success is true and leaving
TotalFeePaid unchanged otherwise. -/
theorem counters_consistent_below_wrap (ops : List MetricsOp) (success : Bool) (fee : ℚ)
    (latency : Int) (h : (ops.length : Int) < 2 ^ 63) :
    (applyOps ops zeroMetrics).TotalTransactions
      = (applyOps ops zeroMetrics).SuccessfulTransactions
        + (applyOps ops zeroMetrics).FailedTransactions ∧
    0 ≤ (applyOps ops zeroMetrics).TotalTransactions ∧
    0 ≤ (applyOps ops zeroMetrics).SuccessfulTransactions ∧
    0 ≤ (applyOps ops zeroMetrics).FailedTransactions ∧
    ((ops.length : Int) + 1 < 2 ^ 63 →
      ((applyOps ops zeroMetrics).RecordTransaction success fee latency).TotalTransactions
        = (applyOps ops zeroMetrics).TotalTransactions + 1 ∧
      (success = true →
        ((applyOps ops zeroMetrics).RecordTransaction success fee
            latency).SuccessfulTransactions
          = (applyOps ops zeroMetrics).SuccessfulTransactions + 1 ∧
        ((applyOps ops zeroMetrics).RecordTransaction success fee latency).FailedTransactions
          = (applyOps ops zeroMetrics).FailedTransactions ∧
        ((applyOps ops zeroMetrics).RecordTransaction success fee latency).TotalFeePaid
          = (applyOps ops zeroMetrics).TotalFeePaid + fee) ∧
      (success = false →
        ((applyOps ops zeroMetrics).RecordTransaction success fee
            latency).SuccessfulTransactions
          = (applyOps ops zeroMetrics).SuccessfulTransactions ∧
        ((applyOps ops zeroMetrics).RecordTransaction success fee latency).FailedTransactions
          = (applyOps ops zeroMetrics).FailedTransactions + 1 ∧
        ((applyOps ops zeroMetrics).RecordTransaction success fee latency).TotalFeePaid
          = (applyOps ops zeroMetrics).TotalFeePaid)) := by
  obtain ⟨h1, h2, h3, h4⟩ := applyOps_counters ops h
  refine ⟨h1, by omega, h2, h3, ?_⟩
  intro hnext
  exact record_keeps_counters (applyOps ops zeroMetrics) success fee latency h1 h2 h3
    (by omega)

/-- After a success, a reset and a failure the counters are consistent, and a
further failed call raises the total and the failure counter by one and leaves
the fee total alone. -/
theorem counters_consistent_below_wrap_witness :
    (applyOps [sampleRecord, MetricsOp.reset, MetricsOp.record false 0 20000000]
        zeroMetrics).TotalTransactions
      = (applyOps [sampleRecord, MetricsOp.reset, MetricsOp.record false 0 20000000]
          zeroMetrics).SuccessfulTransactions
        + (applyOps [sampleRecord, MetricsOp.reset, MetricsOp.record false 0 20000000]
          zeroMetrics).FailedTransactions ∧
    ((applyOps [sampleRecord, MetricsOp.reset, MetricsOp.record false 0 20000000]
        zeroMetrics).RecordTransaction false (5 / 100) 30000000).TotalTransactions
      = (applyOps [sampleRecord, MetricsOp.reset, MetricsOp.record false 0 20000000]
          zeroMetrics).TotalTransactions + 1 ∧
    ((applyOps [sampleRecord, MetricsOp.reset, MetricsOp.record false 0 20000000]
        zeroMetrics).RecordTransaction false (5 / 100) 30000000).TotalFeePaid
      = (applyOps [sampleRecord, MetricsOp.reset, MetricsOp.record false 0 20000000]
          zeroMetrics).TotalFeePaid :=
  ⟨(counters_consistent_below_wrap
      [sampleRecord, MetricsOp.reset, MetricsOp.record false 0 20000000] false (5 / 100)
      30000000 (by norm_num)).1,
   ((counters_consistent_below_wrap
      [sampleRecord, MetricsOp.reset, MetricsOp.record false 0 20000000] false (5 / 100)
      30000000 (by norm_num)).2.2.2.2 (by norm_num)).1,
   (((counters_consistent_below_wrap
      [sampleRecord, MetricsOp.reset, MetricsOp.record false 0 20000000] false (5 / 100)
      30000000 (by norm_num)).2.2.2.2 (by norm_num)).2.2 rfl).2.2⟩

/-! ## C12 and C13: addresses -/

/-- The class `[a-fA-F0-9]`, spelled out. -/
theorem isHexChar_iff (c : Char) :
    isHexChar c = true ↔
      ('0' ≤ c ∧ c ≤ '9') ∨ ('a' ≤ c ∧ c ≤ 'f') ∨ ('A' ≤ c ∧ c ≤ 'F') := by
  unfold isHexChar
  simp only [Bool.or_eq_true, Bool.and_eq_true, decide_eq_true_eq]
  tauto

/-- A match of `addressRegex`: `0x` and then exactly 40 characters of the class. -/
theorem addressRegexMatch_iff (address : String) :
    addressRegexMatch address = true ↔
      ∃ rest, address.toList = '0' :: 'x' :: rest ∧ rest.length = 40 ∧
        ∀ c ∈ rest, isHexChar c = true := by
  unfold addressRegexMatch
  constructor
  · intro h
    split at h
    · rename_i rest heq
      simp only [Bool.and_eq_true, decide_eq_true_eq, List.all_eq_true] at h
      exact ⟨rest, heq, h.1, h.2⟩
    · simp at h
  · rintro ⟨rest, heq, hlen, hall⟩
    rw [heq]
    simp only [Bool.and_eq_true, decide_eq_true_eq, List.all_eq_true]
    exact ⟨hlen, hall⟩

/-- C12: for every string `s`, `ValidateAddress(s)` returns no error if and only
if `s` is exactly 42 characters long, the two characters `0x` followed by exactly
40 characters each in 0-9, a-f or A-F. -/
theorem validateAddress_ok_iff (s : String) :
    ValidateAddress s = none ↔
      s.length = 42 ∧
      ∃ rest, s.toList = '0' :: 'x' :: rest ∧ rest.length = 40 ∧
        ∀ c ∈ rest, ('0' ≤ c ∧ c ≤ '9') ∨ ('a' ≤ c ∧ c ≤ 'f') ∨ ('A' ≤ c ∧ c ≤ 'F') := by
  have hv : ValidateAddress s = none ↔ addressRegexMatch s = true := by
    unfold ValidateAddress
    cases addressRegexMatch s <;> simp
  rw [hv, addressRegexMatch_iff]
  constructor
  · rintro ⟨rest, heq, hlen, hall⟩
    refine ⟨?_, rest, heq, hlen, fun c hc => (isHexChar_iff c).mp (hall c hc)⟩
    have : s.length = s.toList.length := rfl
    rw [this, heq]
    simp [hlen]
  · rintro ⟨_, rest, heq, hlen, hall⟩
    exact ⟨rest, heq, hlen, fun c hc => (isHexChar_iff c).mpr (hall c hc)⟩

/-- A well-formed address is accepted; a missing `0x`, a wrong length and a
character outside the class are rejected. -/
theorem validateAddress_ok_iff_witness :
    ValidateAddress wellFormedRecipient = none ∧
    ValidateAddress "52908400098527886E0F7030069857D2E4169EE7" ≠ none ∧
    ValidateAddress "0x742d35Cc" ≠ none ∧
    ValidateAddress "0x52908400098527886E0F7030069857D2E4169EEg" ≠ none :=
  ⟨(validateAddress_ok_iff wellFormedRecipient).2
      ⟨by decide, "52908400098527886E0F7030069857D2E4169EE7".toList, by decide, by decide,
        by decide⟩,
   fun h => absurd ((validateAddress_ok_iff _).1 h).1 (by decide),
   fun h => absurd ((validateAddress_ok_iff _).1 h).1 (by decide),
   by decide⟩

/-- C13, the code at the failing input: the recipient of the `valid address` test
case and of the example program is `0x` followed by 39 hex digits, 41 characters
in all, so `ValidateAddress` rejects it, and the example request that carries it
fails `ValidateTransactionRequest` on the recipient rule, although it passes with
the recipient left out.  The non-hex recipient `0xZZZZ...` is rejected as well. -/
theorem example_recipient_is_rejected :
    exampleRecipient.length = 41 ∧
    ValidateAddress exampleRecipient
      = some "invalid address format: 0x742d35Cc6634C0532925a3b844Bc9e7595f0bEb" ∧
    ValidateAddress nonHexRecipient
      = some "invalid address format: 0xZZZZ35Cc6634C0532925a3b844Bc9e7595f0bEb" ∧
    ValidateTransactionRequest { exampleRequest with Recipient := "" } = none ∧
    ValidateTransactionRequest exampleRequest
      = some ("recipient validation failed: invalid address format: "
          ++ "0x742d35Cc6634C0532925a3b844Bc9e7595f0bEb") := by
  refine ⟨by decide, by decide, by decide, by decide, by decide⟩

/-! ## The amount grammar -/

theorem isDecDigit_iff (c : Char) : isDecDigit c = true ↔ '0' ≤ c ∧ c ≤ '9' := by
  unfold isDecDigit
  simp only [Bool.and_eq_true, decide_eq_true_eq]

theorem isDecDigit_point : isDecDigit '.' = false := by decide

theorem isDecDigit_hyphen : isDecDigit '-' = false := by decide

/-- The shape of the match on the longest run of leading digits and what follows. -/
theorem amountMatch_cases (ip0 rest ip fp : List Char)
    (h : (match ip0, rest with
      | [], _ => none
      | _ :: _, [] => some (ip0, [])
      | _ :: _, '.' :: fp => if fp ≠ [] ∧ fp.all isDecDigit = true then some (ip0, fp) else none
      | _ :: _, _ :: _ => (none : Option (List Char × List Char))) = some (ip, fp)) :
    ip0 = ip ∧ ip ≠ [] ∧
      ((fp = [] ∧ rest = []) ∨ (fp ≠ [] ∧ rest = '.' :: fp ∧ fp.all isDecDigit = true)) := by
  split at h
  · simp at h
  · rename_i x xs
    simp only [Option.some.injEq, Prod.mk.injEq] at h
    obtain ⟨h1, h2⟩ := h
    subst h1
    exact ⟨rfl, by simp, Or.inl ⟨h2.symm, rfl⟩⟩
  · rename_i x xs fp0
    split at h
    · rename_i hc
      simp only [Option.some.injEq, Prod.mk.injEq] at h
      obtain ⟨h1, h2⟩ := h
      subst h1
      subst h2
      exact ⟨rfl, by simp, Or.inr ⟨hc.1, rfl, hc.2⟩⟩
    · simp at h
  · simp at h

/-- A match of `amountRegex` with captured digits `ip` and `fp`: the text is `ip`,
or `ip`, a point and `fp`, with `ip` (and `fp`, when present) non-empty runs of
digits. -/
theorem amountRegexMatch_eq_some_iff (a : String) (ip fp : List Char) :
    amountRegexMatch a = some (ip, fp) ↔
      ip ≠ [] ∧ (∀ c ∈ ip, isDecDigit c = true) ∧ (∀ c ∈ fp, isDecDigit c = true) ∧
        ((fp = [] ∧ a.toList = ip) ∨ (fp ≠ [] ∧ a.toList = ip ++ '.' :: fp)) := by
  unfold amountRegexMatch
  simp only []
  constructor
  · intro h
    obtain ⟨h1, h2, h3⟩ := amountMatch_cases _ _ ip fp h
    have hsplit : a.toList = ip ++ List.dropWhile isDecDigit a.toList := by
      rw [← h1]
      exact (List.takeWhile_append_dropWhile isDecDigit a.toList).symm
    have hip : ∀ c ∈ ip, isDecDigit c = true := by
      intro c hc
      rw [← h1] at hc
      exact List.mem_takeWhile_imp hc
    rcases h3 with ⟨hf, hr⟩ | ⟨hf, hr, hall⟩
    · refine ⟨h2, hip, by simp [hf], Or.inl ⟨hf, ?_⟩⟩
      rw [hr, List.append_nil] at hsplit
      exact hsplit
    · refine ⟨h2, hip, by simpa using hall, Or.inr ⟨hf, ?_⟩⟩
      rw [hr] at hsplit
      exact hsplit
  · rintro ⟨hne, hip, hfp, hshape⟩
    obtain ⟨x, xs, rfl⟩ := List.exists_cons_of_ne_nil hne
    rcases hshape with ⟨hf, ha⟩ | ⟨hf, ha⟩
    · have ht : List.takeWhile isDecDigit a.toList = x :: xs := by
        rw [ha]; exact List.takeWhile_eq_self_iff.mpr hip
      have hd : List.dropWhile isDecDigit a.toList = [] := by
        rw [ha]; exact List.dropWhile_eq_nil_iff.mpr hip
      rw [ht, hd, hf]
    · have ht : List.takeWhile isDecDigit a.toList = x :: xs := by
        rw [ha, List.takeWhile_append_of_pos hip]
        simp [List.takeWhile_cons, isDecDigit_point]
      have hd : List.dropWhile isDecDigit a.toList = '.' :: fp := by
        rw [ha, List.dropWhile_append_of_pos hip]
        simp [List.dropWhile_cons, isDecDigit_point]
      rw [ht, hd]
      have hall : fp.all isDecDigit = true := by simpa using hfp
      simp [hf, hall]

/-! ## C11: amounts -/

/-- `ParseFloat` reports a positive value exactly when the exact decimal value
lies strictly between 2^-1075 and 2^1024 - 2^970. -/
theorem parseFloat_positive_iff (ip fp : List Char) :
    ParseFloat ip fp = ParseFloatResult.value true ↔
      (1 : ℚ) / 2 ^ 1075 < decimalValue ip fp ∧
      decimalValue ip fp < 2 ^ 1024 - 2 ^ 970 := by
  unfold ParseFloat decimalValue
  simp only []
  generalize digitsValue (ip ++ fp) = m
  generalize fp.length = k
  have hk : (0 : ℚ) < (10 : ℚ) ^ k := by positivity
  have h2 : (0 : ℚ) < (2 : ℚ) ^ 1075 := by positivity
  have hsub : (((2 ^ 1024 - 2 ^ 970 : ℕ)) : ℚ) = 2 ^ 1024 - 2 ^ 970 := by
    rw [Nat.cast_sub (Nat.pow_le_pow_right (by norm_num) (by norm_num))]
    simp only [Nat.cast_pow, Nat.cast_ofNat]
  have hlow : 10 ^ k < m * 2 ^ 1075 ↔ (1 : ℚ) / 2 ^ 1075 < (m : ℚ) / 10 ^ k := by
    rw [div_lt_div_iff₀ h2 hk, one_mul]
    exact_mod_cast Iff.rfl
  have hhigh : ¬ ((2 ^ 1024 - 2 ^ 970) * 10 ^ k ≤ m) ↔
      (m : ℚ) / 10 ^ k < 2 ^ 1024 - 2 ^ 970 := by
    rw [div_lt_iff₀ hk, ← hsub, not_le]
    exact_mod_cast Iff.rfl
  by_cases hr : (2 ^ 1024 - 2 ^ 970) * 10 ^ k ≤ m
  · rw [if_pos hr]
    constructor
    · intro h; cases h
    · intro h; exact absurd hr (hhigh.mpr h.2)
  · rw [if_neg hr]
    constructor
    · intro h
      simp only [ParseFloatResult.value.injEq, decide_eq_true_eq] at h
      exact ⟨hlow.mp h, hhigh.mp hr⟩
    · intro h
      simp only [ParseFloatResult.value.injEq, decide_eq_true_eq]
      exact hlow.mpr h.1

/-- `ValidateAmount` accepts exactly when `amountRegex` matches and `ParseFloat`
reports a positive value. -/
theorem validateAmount_none_iff_match (a : String) :
    ValidateAmount a = none ↔
      ∃ ip fp, amountRegexMatch a = some (ip, fp) ∧
        ParseFloat ip fp = ParseFloatResult.value true := by
  unfold ValidateAmount
  cases hm : amountRegexMatch a with
  | none => simp
  | some p =>
    obtain ⟨ip, fp⟩ := p
    simp only [Option.some.injEq, Prod.mk.injEq]
    cases hp : ParseFloat ip fp with
    | rangeError =>
      simp only []
      constructor
      · intro h; cases h
      · rintro ⟨ip2, fp2, ⟨h1, h2⟩, h3⟩
        subst h1; subst h2
        rw [hp] at h3
        cases h3
    | value positive =>
      cases positive with
      | true =>
        simp only [Bool.not_true, if_false]
        exact ⟨fun _ => ⟨ip, fp, ⟨rfl, rfl⟩, hp⟩, fun _ => by simp⟩
      | false =>
        simp only [Bool.not_false, if_true]
        constructor
        · intro h; cases h
        · rintro ⟨ip2, fp2, ⟨h1, h2⟩, h3⟩
          subst h1; subst h2
          rw [hp] at h3
          cases h3

theorem decimalValue_of_digits (ip fp : List Char) (m : Nat)
    (h : digitsValue (ip ++ fp) = m) :
    decimalValue ip fp = (m : ℚ) / (10 : ℚ) ^ fp.length := by
  unfold decimalValue
  rw [h]

/-- C11, the code at the failing inputs: the amount 0.00...02 (323 zeros after
the point) consists of a digit, a point and 324 digits, and denotes the number
2e-324, which is strictly greater than zero; `ValidateAmount` rejects it with
`amount must be positive`.  The amount 1 followed by 309 zeros, a grammatical
integer greater than zero, is rejected as well. -/
theorem tiny_amount_is_rejected :
    DecimalLiteral tinyAmount ['0'] (List.replicate 323 '0' ++ ['2']) ∧
    0 < decimalValue ['0'] (List.replicate 323 '0' ++ ['2']) ∧
    ValidateAmount tinyAmount = some "amount must be positive" ∧
    DecimalLiteral hugeAmount ('1' :: List.replicate 309 '0') [] ∧
    0 < decimalValue ('1' :: List.replicate 309 '0') [] ∧
    ValidateAmount hugeAmount ≠ none := by
  have hd1 : digitsValue (['0'] ++ (List.replicate 323 '0' ++ ['2'])) = 2 := by
    set_option maxRecDepth 100000 in decide
  have hd2 : digitsValue (('1' :: List.replicate 309 '0') ++ []) = 10 ^ 309 := by
    set_option maxRecDepth 100000 in decide
  refine ⟨⟨List.cons_ne_nil _ _, ?_, ?_,
      Or.inr ⟨List.append_ne_nil_of_right_ne_nil _ (List.cons_ne_nil _ _), ?_⟩⟩, ?_, ?_,
    ⟨List.cons_ne_nil _ _, ?_, fun c hc => absurd hc (List.not_mem_nil c),
      Or.inl ⟨rfl, rfl⟩⟩, ?_, ?_⟩
  · set_option maxRecDepth 100000 in decide
  · set_option maxRecDepth 100000 in decide
  · set_option maxRecDepth 100000 in decide
  · unfold decimalValue
    rw [hd1]
    positivity
  · set_option maxRecDepth 100000 in decide
  · set_option maxRecDepth 100000 in decide
  · unfold decimalValue
    rw [hd2]
    positivity
  · set_option maxRecDepth 100000 in decide

/-- The amounts the code accepts: `ValidateAmount(a)` returns no error if and
only if `a` consists of one or more decimal digits optionally followed by a point
and one or more decimal digits, and the exact decimal value it denotes lies
strictly between 2^-1075 and 2^1024 - 2^970, the range of numbers that
`strconv.ParseFloat` rounds to a finite float64 greater than zero. -/
theorem validateAmount_ok_iff (a : String) :
    ValidateAmount a = none ↔
      ∃ ip fp, DecimalLiteral a ip fp ∧
        (1 : ℚ) / 2 ^ 1075 < decimalValue ip fp ∧
        decimalValue ip fp < 2 ^ 1024 - 2 ^ 970 := by
  rw [validateAmount_none_iff_match]
  constructor
  · rintro ⟨ip, fp, hm, hp⟩
    obtain ⟨h1, h2, h3, h4⟩ := (amountRegexMatch_eq_some_iff a ip fp).mp hm
    exact ⟨ip, fp,
      ⟨h1, fun c hc => (isDecDigit_iff c).mp (h2 c hc),
        fun c hc => (isDecDigit_iff c).mp (h3 c hc), h4⟩,
      (parseFloat_positive_iff ip fp).mp hp⟩
  · rintro ⟨ip, fp, ⟨h1, h2, h3, h4⟩, hv⟩
    exact ⟨ip, fp,
      (amountRegexMatch_eq_some_iff a ip fp).mpr
        ⟨h1, fun c hc => (isDecDigit_iff c).mpr (h2 c hc),
          fun c hc => (isDecDigit_iff c).mpr (h3 c hc), h4⟩,
      (parseFloat_positive_iff ip fp).mpr hv⟩

/-- The amounts of the test table: 100 and 100.50 are accepted, 0, -100 and abc
are rejected. -/
theorem validateAmount_ok_iff_witness :
    ValidateAmount "100" = none ∧ ValidateAmount "100.50" = none ∧
    ValidateAmount "0" ≠ none ∧ ValidateAmount "-100" ≠ none ∧
    ValidateAmount "abc" ≠ none :=
  ⟨(validateAmount_ok_iff "100").2
      ⟨['1', '0', '0'], [], ⟨by simp, by decide, by simp, Or.inl ⟨rfl, rfl⟩⟩,
        by rw [decimalValue_of_digits _ _ 100 (by decide)]; norm_num,
        by rw [decimalValue_of_digits _ _ 100 (by decide)]; norm_num⟩,
   (validateAmount_ok_iff "100.50").2
      ⟨['1', '0', '0'], ['5', '0'], ⟨by simp, by decide, by decide, Or.inr ⟨by simp, rfl⟩⟩,
        by rw [decimalValue_of_digits _ _ 10050 (by decide)]; norm_num,
        by rw [decimalValue_of_digits _ _ 10050 (by decide)]; norm_num⟩,
   by decide, by decide, by decide⟩

/-! ## C20: the cache key -/

/-- Two texts cut at their first hyphen agree on both sides of it. -/
theorem split_at_first_hyphen (a1 a2 r1 r2 : List Char) (h1 : '-' ∉ a1) (h2 : '-' ∉ a2)
    (h : a1 ++ '-' :: r1 = a2 ++ '-' :: r2) : a1 = a2 ∧ r1 = r2 := by
  induction a1 generalizing a2 with
  | nil =>
    cases a2 with
    | nil => simpa using h
    | cons y ys =>
      simp only [List.nil_append, List.cons_append, List.cons.injEq] at h
      exact absurd (h.1 ▸ List.mem_cons_self _ _) h2
  | cons x xs ih =>
    cases a2 with
    | nil =>
      simp only [List.nil_append, List.cons_append, List.cons.injEq] at h
      exact absurd (h.1 ▸ List.mem_cons_self _ _) h1
    | cons y ys =>
      simp only [List.cons_append, List.cons.injEq] at h
      obtain ⟨hxy, hrest⟩ := h
      obtain ⟨e1, e2⟩ := ih ys (fun hm => h1 (List.mem_cons_of_mem _ hm))
        (fun hm => h2 (List.mem_cons_of_mem _ hm)) hrest
      exact ⟨by rw [hxy, e1], e2⟩

/-- An amount that passes `ValidateAmount` contains no hyphen. -/
theorem valid_amount_has_no_hyphen (a : String) (h : ValidateAmount a = none) :
    '-' ∉ a.toList := by
  obtain ⟨ip, fp, hm, _⟩ := (validateAmount_none_iff_match a).mp h
  obtain ⟨_, hip, hfp, hshape⟩ := (amountRegexMatch_eq_some_iff a ip fp).mp hm
  have hnip : '-' ∉ ip := fun hc => by
    have := hip _ hc
    rw [isDecDigit_hyphen] at this
    cases this
  have hnfp : '-' ∉ fp := fun hc => by
    have := hfp _ hc
    rw [isDecDigit_hyphen] at this
    cases this
  rcases hshape with ⟨_, ha⟩ | ⟨_, ha⟩
  · rw [ha]; exact hnip
  · rw [ha]
    intro hc
    rcases List.mem_append.mp hc with hc | hc
    · exact hnip hc
    · rcases List.mem_cons.mp hc with hc | hc
      · cases hc
      · exact hnfp hc

theorem validate_none_amount (req : TransactionRequest)
    (h : ValidateTransactionRequest req = none) : ValidateAmount req.Amount = none := by
  rw [validate_unfold] at h
  cases ha : ValidateAmount req.Amount with
  | none => rfl
  | some e => simp [ha] at h

theorem cacheKey_toList (req : TransactionRequest) :
    (cacheKey req).toList
      = req.Typ.toList ++ '-' :: (req.Amount.toList ++ '-' :: req.Asset.toList) := by
  show (req.Typ ++ "-" ++ req.Amount ++ "-" ++ req.Asset).data = _
  simp only [String.data_append, String.toList, List.append_assoc]
  rfl

/-- C20, counterexample: two requests that both pass `ValidateTransactionRequest`
and have the same cache key `transfer-1-2-USDC`, although their Type, their Amount
and their Asset all differ: the Type and the Asset are not validated and may
contain the separator. -/
theorem cache_key_collision :
    ValidateTransactionRequest hyphenTypeRequest = none ∧
    ValidateTransactionRequest hyphenAssetRequest = none ∧
    cacheKey hyphenTypeRequest = "transfer-1-2-USDC" ∧
    cacheKey hyphenAssetRequest = "transfer-1-2-USDC" ∧
    hyphenTypeRequest.Typ ≠ hyphenAssetRequest.Typ ∧
    hyphenTypeRequest.Amount ≠ hyphenAssetRequest.Amount ∧
    hyphenTypeRequest.Asset ≠ hyphenAssetRequest.Asset := by
  refine ⟨by decide, by decide, by decide, by decide, by decide, by decide, by decide⟩

/-- C20, amended: for every two requests that both pass
`ValidateTransactionRequest` and whose Type contains no hyphen (as the three
intent types transfer, swap and shield), if their cache keys are equal then their
Type, Amount and Asset are pairwise equal. -/
theorem cache_key_separates_shapes (r1 r2 : TransactionRequest)
    (hv1 : ValidateTransactionRequest r1 = none)
    (hv2 : ValidateTransactionRequest r2 = none)
    (ht1 : '-' ∉ r1.Typ.toList) (ht2 : '-' ∉ r2.Typ.toList)
    (hkey : cacheKey r1 = cacheKey r2) :
    r1.Typ = r2.Typ ∧ r1.Amount = r2.Amount ∧ r1.Asset = r2.Asset := by
  have hl : (cacheKey r1).toList = (cacheKey r2).toList := by rw [hkey]
  rw [cacheKey_toList, cacheKey_toList] at hl
  obtain ⟨e1, hrest⟩ := split_at_first_hyphen _ _ _ _ ht1 ht2 hl
  obtain ⟨e2, e3⟩ := split_at_first_hyphen _ _ _ _
    (valid_amount_has_no_hyphen _ (validate_none_amount r1 hv1))
    (valid_amount_has_no_hyphen _ (validate_none_amount r2 hv2)) hrest
  exact ⟨String.ext e1, String.ext e2, String.ext e3⟩

/-- Two sample transfers with different reference IDs share the key and the
economic shape; the three intent types contain no hyphen. -/
theorem cache_key_separates_shapes_witness :
    ((sampleRequest "ref_pay_salary_001").Typ = (sampleRequest "ref_pay_salary_002").Typ ∧
      (sampleRequest "ref_pay_salary_001").Amount
        = (sampleRequest "ref_pay_salary_002").Amount ∧
      (sampleRequest "ref_pay_salary_001").Asset
        = (sampleRequest "ref_pay_salary_002").Asset) ∧
    '-' ∉ IntentTransfer.toList ∧ '-' ∉ IntentSwap.toList ∧ '-' ∉ IntentShield.toList :=
  ⟨cache_key_separates_shapes (sampleRequest "ref_pay_salary_001")
      (sampleRequest "ref_pay_salary_002") (by decide) (by decide) (by decide) (by decide)
      (by decide),
   by decide, by decide, by decide⟩

/-! ## pkg/crypto: encoding and decoding a signature -/

/-- A hex digit written by `hex.EncodeToString` is one byte, and `fromHexChar`
reads its value back. -/
theorem fromHexChar_digitChar (n : Nat) (h : n < 16) :
    ∃ code, (String.utf8EncodeChar (Nat.digitChar n)).map (fun b => b.toNat) = [code] ∧
      fromHexChar code = some n := by
  refine ⟨(Nat.digitChar n).toNat, ?_, ?_⟩ <;> interval_cases n <;> decide

theorem goStringBytes_mk_cons (c : Char) (cs : List Char) :
    goStringBytes (String.mk (c :: cs))
      = (String.utf8EncodeChar c).map (fun b => b.toNat) ++ goStringBytes (String.mk cs) := by
  simp [goStringBytes]

theorem goStringBytes_append (s t : String) :
    goStringBytes (s ++ t) = goStringBytes s ++ goStringBytes t := by
  simp [goStringBytes, String.toList]

theorem fin_ofNat_nibbles (b : Fin 256) :
    (Fin.ofNat (b.val / 16 * 16 + b.val % 16) : Fin 256) = b := by
  apply Fin.ext
  have h : b.val / 16 * 16 + b.val % 16 = b.val := by omega
  rw [h]
  show b.val % 256 = b.val
  exact Nat.mod_eq_of_lt b.isLt

/-- `hex.DecodeString` undoes `hex.EncodeToString`. -/
theorem hexDecode_encode (bs : List (Fin 256)) :
    hexDecodeString (goStringBytes (hexEncodeBytes bs)) = some bs := by
  unfold hexEncodeBytes
  induction bs with
  | nil => rfl
  | cons b rest ih =>
    obtain ⟨c1, h1, f1⟩ := fromHexChar_digitChar (b.val / 16) (by omega)
    obtain ⟨c2, h2, f2⟩ := fromHexChar_digitChar (b.val % 16) (by omega)
    simp only [List.flatMap_cons, hexByte, List.cons_append, List.nil_append,
      goStringBytes_mk_cons, h1, h2]
    simp only [hexDecodeString, f1, f2, ih, fin_ofNat_nibbles]

/-- `SetBytes` undoes `Bytes`. -/
theorem bigIntSetBytes_bytes (x : Nat) : bigIntSetBytes (bigIntBytes x) = x := by
  have key : ∀ l : List Nat, (∀ d ∈ l, d < 256) →
      bigIntSetBytes ((l.reverse).map (fun d => (Fin.ofNat d : Fin 256)))
        = Nat.ofDigits 256 l := by
    intro l hl
    unfold bigIntSetBytes
    rw [List.foldl_map, List.foldl_reverse]
    induction l with
    | nil => rfl
    | cons d ds ih =>
      have hd : ((Fin.ofNat d : Fin 256)).val = d := by
        show d % 256 = d
        exact Nat.mod_eq_of_lt (hl d (List.mem_cons_self _ _))
      simp only [List.foldr_cons, Nat.ofDigits_cons, hd]
      rw [ih (fun e he => hl e (List.mem_cons_of_mem _ he))]
      ring
  unfold bigIntBytes
  rw [key _ (fun d hd => Nat.digits_lt_base (by norm_num) hd), Nat.ofDigits_digits]

/-- The decoding of a signature text built by `SignMessage`, before the split. -/
theorem signatureIntegers_encode (r sig : Nat) :
    signatureIntegers (encodeSignature r sig)
      = some (splitSignature (bigIntBytes r ++ bigIntBytes sig)) := by
  have h0x : goStringBytes "0x" = [48, 120] := by decide
  unfold signatureIntegers encodeSignature
  rw [goStringBytes_append, h0x]
  simp only [List.cons_append, List.nil_append, List.length_cons, List.drop_succ_cons,
    List.drop_zero, hexDecode_encode]
  rw [if_neg (by omega)]

/-- When `s` has as many bytes as `r`, or one more, the midpoint falls between
them and the split returns the two integers. -/
theorem signature_round_trip_of_lengths (r sig : Nat)
    (h1 : (bigIntBytes r).length ≤ (bigIntBytes sig).length)
    (h2 : (bigIntBytes sig).length ≤ (bigIntBytes r).length + 1) :
    signatureIntegers (encodeSignature r sig) = some (r, sig) := by
  rw [signatureIntegers_encode]
  unfold splitSignature
  have hmid : (bigIntBytes r ++ bigIntBytes sig).length / 2 = (bigIntBytes r).length := by
    rw [List.length_append]
    omega
  rw [hmid, List.take_left', List.drop_left', bigIntSetBytes_bytes, bigIntSetBytes_bytes]
  · rfl
  · rfl

/-! ## C21: the signature text -/

/-- C21, the code at the failing input: for the signature integers r = 256 and
s = 1 (both between 0 and 2^256) `SignMessage` builds the text `0x010001`, and
`VerifySignature` decodes it into the pair (1, 1), not (256, 1), so a library
that accepts exactly the signed pair rejects the signature `SignMessage` has
just produced.  The same happens with integers of realistic size: the 32-byte
x-coordinate of the P-256 base point as r and the 31-byte s = 2^247 are decoded
with the last byte of r moved to the front of s. -/
theorem signature_split_changes_integers :
    encodeSignature 256 1 = "0x010001" ∧
    signatureIntegers (encodeSignature 256 1) = some (1, 1) ∧
    Signer.SignMessage (fixedSignatureLib 256 1) (NewSigner sampleKey) []
      = ("0x010001", none) ∧
    VerifySignature (fixedSignatureLib 256 1) sampleKey.PublicKey [] "0x010001"
      = some false ∧
    (0 < p256Gx ∧ p256Gx < 2 ^ 256) ∧
    (bigIntBytes p256Gx).length = 32 ∧ (bigIntBytes (2 ^ 247)).length = 31 ∧
    signatureIntegers (encodeSignature p256Gx (2 ^ 247))
      = some (p256Gx / 256, p256Gx % 256 * 2 ^ 248 + 2 ^ 247) ∧
    (p256Gx / 256, p256Gx % 256 * 2 ^ 248 + 2 ^ 247) ≠ (p256Gx, 2 ^ 247) := by
  have hb256 : bigIntBytes 256 = [1, 0] := by
    norm_num [bigIntBytes]
    decide
  have hb1 : bigIntBytes 1 = [1] := by
    norm_num [bigIntBytes]
    decide
  have hbg : bigIntBytes p256Gx
      = [0x6B, 0x17, 0xD1, 0xF2, 0xE1, 0x2C, 0x42, 0x47, 0xF8, 0xBC, 0xE6, 0xE5, 0x63, 0xA4,
         0x40, 0xF2, 0x77, 0x03, 0x7D, 0x81, 0x2D, 0xEB, 0x33, 0xA0, 0xF4, 0xA1, 0x39, 0x45,
         0xD8, 0x98, 0xC2, 0x96] := by
    norm_num [bigIntBytes, p256Gx]
    decide
  have hbs : bigIntBytes (2 ^ 247) = 128 :: List.replicate 30 0 := by
    norm_num [bigIntBytes]
    decide
  have henc : encodeSignature 256 1 = "0x010001" := by
    unfold encodeSignature
    rw [hb256, hb1]
    decide
  have hint : signatureIntegers (encodeSignature 256 1) = some (1, 1) := by
    rw [henc]
    decide
  refine ⟨henc, hint, ?_, ?_, by decide, by rw [hbg]; rfl, by rw [hbs]; rfl, ?_, by decide⟩
  · simp only [Signer.SignMessage, fixedSignatureLib, henc]
  · decide
  · rw [signatureIntegers_encode, hbg, hbs]
    decide

end ECash
